import Mathlib

/-!
The ctags tag-file writer (`main/writer-ctags.c`) and the rules of the HTML
parser (`parsers/html.c`).

A shallow embedding of the writer of the `tags` file format and of the two
rules that the HTML parser registers, with the properties of the records
written and of the names extracted.

Conventions of the embedding.

* A C string is a Lean `String`; each character stands for one C `char`, so
  the number of bytes of a string is its `length`.  A `const char *` that may
  be `NULL` is an `Option String`.
* The output stream `MIO` is the text written to it so far.
* Passing `NULL` for a `%s` conversion, or to `mio_puts`, is undefined
  behaviour in C: the functions that format rendered values return an
  `Option`, and `none` stands for undefined behaviour.
* The field registry, the option table, the kind table and the pseudo-tag
  constants live in other files of the program; they are gathered in the
  structure `Env`, over which every definition is parametrised.
* The pattern extraction engine is in other files of the program as well; the
  part of it that the rules of the HTML parser need is modelled from the
  specification.
-/

namespace Ctags

/-! ## Data model -/

/-- The field identities used by the writer (`fieldType` of `field.h`).
`FIELD_PARSER n` stands for the `n`-th field defined by a parser. -/
inductive fieldType where
  | FIELD_NAME
  | FIELD_INPUT_FILE
  | FIELD_PATTERN
  | FIELD_FILE_SCOPE
  | FIELD_KIND_LONG
  | FIELD_KIND
  | FIELD_LANGUAGE
  | FIELD_LINE_NUMBER
  | FIELD_SCOPE
  | FIELD_TYPE_REF
  | FIELD_KIND_KEY
  | FIELD_ACCESS
  | FIELD_IMPLEMENTATION
  | FIELD_INHERITANCE
  | FIELD_SIGNATURE
  | FIELD_ROLES
  | FIELD_SCOPE_KEY
  | FIELD_SCOPE_KIND_LONG
  | FIELD_EXTRAS
  | FIELD_XPATH
  | FIELD_END_LINE
  | FIELD_PARSER (n : Nat)
  deriving DecidableEq, Repr

open fieldType

/-- The index passed to the field functions for a field that is not a parser
field (`NO_PARSER_FIELD`). -/
def NO_PARSER_FIELD : Int := -1

/-- Modelled from the spec: `KIND_NULL`, the "null" letter of a kind that has
no one-letter form (`kind.h` is not among the sources); it is the NUL
character. -/
def KIND_NULL : Char := Char.ofNat 0

/-- A kind definition: the one-letter form (`KIND_NULL` when absent) and the
long name (`NULL` when absent). -/
structure kindDefinition where
  letter : Char
  name : Option String
  deriving DecidableEq, Repr

/-- A field attached to a tag by a parser. -/
structure tagField where
  ftype : fieldType
  value : String
  deriving DecidableEq, Repr

/-- The tag entry: the members the writer reads directly (`lineNumberEntry`,
`lineNumber`, `langType`, `kindIndex`, the parser fields) and the texts the
field renderers work from.  `usedParserFields` is the length of
`parserFields`, and `getParserField tag i` is its `i`-th element. -/
structure tagEntryInfo where
  lineNumberEntry : Bool
  lineNumber : Nat
  langType : Int
  kindIndex : Int
  name : String
  inputFile : String
  pattern : String
  parserFields : List tagField
  deriving DecidableEq, Repr

/-- The way a tag is located (`exCmd`). -/
inductive exCmd where
  | EX_MIX
  | EX_LINENUM
  | EX_PATTERN
  | EX_COMBINE
  deriving DecidableEq, Repr

/-- The members of the global `Option` that the writer reads. -/
structure optionValues where
  lineDirectives : Bool
  locate : exCmd
  backward : Bool
  deriving DecidableEq, Repr

/-- The writer types (`writerType`). -/
inductive writerType where
  | WRITER_U_CTAGS
  | WRITER_E_CTAGS
  | WRITER_ETAGS
  | WRITER_XREF
  | WRITER_JSON
  | WRITER_CUSTOM
  deriving DecidableEq, Repr

/-- The per-stream rejection state. -/
structure rejection where
  rejectionInThisInput : Bool
  deriving DecidableEq, Repr

/-- The members of a `tagWriter` that the functions of this file read or
write: its type, its private data (`NULL` or the rejection state; `priv`
stands for the member `private`, a reserved word here) and its default file
name. -/
structure tagWriter where
  type : writerType
  priv : Option rejection
  defaultFileName : String
  deriving DecidableEq, Repr

/-- A pseudo-tag descriptor: the member the writer reads. -/
structure ptagDesc where
  name : String
  deriving DecidableEq, Repr

/-- The output stream: the text written so far. -/
structure MIO where
  buf : String
  deriving DecidableEq, Repr

/-- What the writer takes from the rest of the program: the field registry
(`field.c`), the kind table (`parse.c`), the option table (`options.c`), the
pseudo-tag constants (`ptag_p.h`) and the value `mio_puts` returns after it
has written a string (`mio.c`). -/
structure Env where
  isFieldEnabled : fieldType → Bool
  doesFieldHaveValue : fieldType → tagEntryInfo → Bool
  doesFieldHaveTabChar : fieldType → tagEntryInfo → Int → Bool
  doesFieldHaveRenderer : fieldType → Bool → Bool
  renderField : fieldType → tagEntryInfo → Int → Option String
  renderFieldNoEscaping : fieldType → tagEntryInfo → Int → Option String
  getFieldName : fieldType → String
  getLanguageKind : Int → Int → kindDefinition
  includeExtensionFlags : Bool
  PSEUDO_TAG_PREFIX : String
  PSEUDO_TAG_SEPARATOR : String
  mio_puts_result : String → Nat
  Option : optionValues

/-! ## Output primitives -/

/-- The function `mio_printf` applied to the already formatted text `s`:
appends it and returns the number of bytes written. -/
def mio_printf (mio : MIO) (s : String) : MIO × Nat :=
  (⟨mio.buf ++ s⟩, s.length)

/-- The function `mio_puts`: appends `s`; the value returned is the one of
the environment. -/
def mio_puts (env : Env) (mio : MIO) (s : String) : MIO × Nat :=
  (⟨mio.buf ++ s⟩, env.mio_puts_result s)

/-- The width of `unsigned long`. -/
def ULONG_BITS : Nat := 64

/-- The conversion `%lu` of an `unsigned long`. -/
def fmt_lu (n : Nat) : String :=
  Nat.repr (n % 2 ^ ULONG_BITS)

/-- The conversion `%ld` applied to an `unsigned long`: the value is read as a
two's complement `long`. -/
def fmt_ld (n : Nat) : String :=
  if n % 2 ^ ULONG_BITS < 2 ^ (ULONG_BITS - 1) then Nat.repr (n % 2 ^ ULONG_BITS)
  else "-" ++ Nat.repr (2 ^ ULONG_BITS - n % 2 ^ ULONG_BITS)

/-! ## The writer -/

/-- The function `beginECtagsFile`: the rejection state of a new stream. -/
def beginECtagsFile : rejection :=
  { rejectionInThisInput := false }

/-- The function `endECTagsFile`: the rejection flag of the stream;
undefined when the writer has no private data. -/
def endECTagsFile (writer : tagWriter) : Option Bool :=
  writer.priv.map (fun rej => rej.rejectionInThisInput)

/-- The loop of `hasTagEntryTabChar` over the parser fields, from index `i`. -/
def hasTabCharInParserFields (env : Env) (tag : tagEntryInfo) : Nat → List tagField → Bool
  | _, [] => false
  | i, f :: fs =>
    if env.isFieldEnabled f.ftype && env.doesFieldHaveTabChar f.ftype tag (i : Int) then true
    else hasTabCharInParserFields env tag (i + 1) fs

/-- The function `hasTagEntryTabChar`. -/
def hasTagEntryTabChar (env : Env) (tag : tagEntryInfo) : Bool :=
  if env.doesFieldHaveTabChar FIELD_NAME tag NO_PARSER_FIELD
      || env.doesFieldHaveTabChar FIELD_INPUT_FILE tag NO_PARSER_FIELD then true
  else if (if tag.lineNumberEntry then
             env.Option.lineDirectives
               && env.doesFieldHaveTabChar FIELD_LINE_NUMBER tag NO_PARSER_FIELD
           else env.doesFieldHaveTabChar FIELD_PATTERN tag NO_PARSER_FIELD) then true
  else if env.includeExtensionFlags
      && ((env.isFieldEnabled FIELD_SCOPE && env.doesFieldHaveValue FIELD_SCOPE tag
            && (env.doesFieldHaveTabChar FIELD_SCOPE_KIND_LONG tag NO_PARSER_FIELD
                || env.doesFieldHaveTabChar FIELD_SCOPE tag NO_PARSER_FIELD))
          || (env.isFieldEnabled FIELD_TYPE_REF && env.doesFieldHaveValue FIELD_TYPE_REF tag
            && env.doesFieldHaveTabChar FIELD_TYPE_REF tag NO_PARSER_FIELD)
          || (env.isFieldEnabled FIELD_FILE_SCOPE && env.doesFieldHaveValue FIELD_FILE_SCOPE tag
            && env.doesFieldHaveTabChar FIELD_FILE_SCOPE tag NO_PARSER_FIELD)
          || [FIELD_INHERITANCE, FIELD_ACCESS, FIELD_IMPLEMENTATION, FIELD_SIGNATURE,
              FIELD_ROLES, FIELD_EXTRAS, FIELD_XPATH, FIELD_END_LINE].any (fun f =>
                env.isFieldEnabled f && env.doesFieldHaveValue f tag
                  && env.doesFieldHaveTabChar f tag NO_PARSER_FIELD)) then true
  else hasTabCharInParserFields env tag 0 tag.parserFields

/-- The function `escapeFieldValueFull`. -/
def escapeFieldValueFull (env : Env) (writer : tagWriter) (tag : tagEntryInfo)
    (ftype : fieldType) (fieldIndex : Int) : Option String :=
  if writer.type = writerType.WRITER_E_CTAGS && env.doesFieldHaveRenderer ftype true then
    env.renderFieldNoEscaping ftype tag fieldIndex
  else
    env.renderField ftype tag fieldIndex

/-- The function `escapeFieldValue`. -/
def escapeFieldValue (env : Env) (writer : tagWriter) (tag : tagEntryInfo)
    (ftype : fieldType) : Option String :=
  escapeFieldValueFull env writer tag ftype NO_PARSER_FIELD

/-- The local state of `addExtensionFields`: the stream, the separator `sep`
(`;"` until the first segment is written, empty afterwards) and `length`. -/
structure extState where
  mio : MIO
  sep : String
  length : Nat
  deriving DecidableEq, Repr

/-- The function `renderExtensionFieldMaybe`, followed by the `length +=` of
its caller. -/
def renderExtensionFieldMaybe (env : Env) (writer : tagWriter) (xftype : fieldType)
    (tag : tagEntryInfo) (st : extState) : Option extState :=
  if env.isFieldEnabled xftype && env.doesFieldHaveValue xftype tag then
    (escapeFieldValue env writer tag xftype).map fun v =>
      let r := mio_printf st.mio (st.sep ++ "\t" ++ env.getFieldName xftype ++ ":" ++ v)
      { mio := r.1, sep := "", length := st.length + r.2 }
  else
    some st

/-- The loop of `addParserFields`, from index `i`. -/
def addParserFieldsLoop (env : Env) (writer : tagWriter) (tag : tagEntryInfo) :
    Nat → List tagField → MIO → Nat → Option ( MIO × Nat)
  | _, [], mio, length => some (mio, length)
  | i, f :: fs, mio, length =>
    if !env.isFieldEnabled f.ftype then
      addParserFieldsLoop env writer tag (i + 1) fs mio length
    else
      (escapeFieldValueFull env writer tag f.ftype (i : Int)).bind fun v =>
        let r := mio_printf mio ("\t" ++ env.getFieldName f.ftype ++ ":" ++ v)
        addParserFieldsLoop env writer tag (i + 1) fs r.1 (length + r.2)

/-- The function `addParserFields`. -/
def addParserFields (env : Env) (writer : tagWriter) (mio : MIO) (tag : tagEntryInfo) :
    Option ( MIO × Nat) :=
  addParserFieldsLoop env writer tag 0 tag.parserFields mio 0

/-- The function `writeLineNumberEntry`. -/
def writeLineNumberEntry (env : Env) (writer : tagWriter) (mio : MIO) (tag : tagEntryInfo) :
    Option ( MIO × Nat) :=
  if env.Option.lineDirectives then
    (escapeFieldValue env writer tag FIELD_LINE_NUMBER).map fun v => mio_printf mio v
  else
    some (mio_printf mio (fmt_lu tag.lineNumber))

/-- The string `str` chosen by `addExtensionFields` for the kind. -/
def kindString (env : Env) (kdef : kindDefinition) : Option String :=
  if kdef.name.isSome && (env.isFieldEnabled FIELD_KIND_LONG
      || (env.isFieldEnabled FIELD_KIND && kdef.letter = KIND_NULL)) then
    kdef.name
  else if kdef.letter ≠ KIND_NULL && (env.isFieldEnabled FIELD_KIND
      || (env.isFieldEnabled FIELD_KIND_LONG && kdef.name.isNone)) then
    some (String.singleton kdef.letter)
  else
    none

/-- The kind step of `addExtensionFields`. -/
def addKindField (env : Env) (tag : tagEntryInfo) (st : extState) : extState :=
  let isKindKeyEnabled := env.isFieldEnabled FIELD_KIND_KEY
  let kindKey := if isKindKeyEnabled then env.getFieldName FIELD_KIND_KEY else ""
  let kindFmt : String → String → String → String := fun sep key str =>
    if isKindKeyEnabled then sep ++ "\t" ++ key ++ ":" ++ str else sep ++ "\t" ++ key ++ str
  let kdef := env.getLanguageKind tag.langType tag.kindIndex
  match kindString env kdef with
  | some str =>
    let r := mio_printf st.mio (kindFmt st.sep kindKey str)
    { mio := r.1, sep := "", length := st.length + r.2 }
  | none => st

/-- The line number step of `addExtensionFields`. -/
def addLineNumberField (env : Env) (tag : tagEntryInfo) (st : extState) : extState :=
  if env.isFieldEnabled FIELD_LINE_NUMBER && env.doesFieldHaveValue FIELD_LINE_NUMBER tag then
    let r := mio_printf st.mio
      (st.sep ++ "\t" ++ env.getFieldName FIELD_LINE_NUMBER ++ ":" ++ fmt_ld tag.lineNumber)
    { mio := r.1, sep := "", length := st.length + r.2 }
  else st

/-- The scope step of `addExtensionFields`. -/
def addScopeField (env : Env) (writer : tagWriter) (tag : tagEntryInfo) (st : extState) :
    extState :=
  let isScopeEnabled := env.isFieldEnabled FIELD_SCOPE_KEY
  let scopeKey := if isScopeEnabled then env.getFieldName FIELD_SCOPE_KEY else ""
  let scopeFmt : String → String → String → String → String := fun sep key k v =>
    if isScopeEnabled then sep ++ "\t" ++ key ++ ":" ++ k ++ ":" ++ v
    else sep ++ "\t" ++ key ++ k ++ ":" ++ v
  if env.isFieldEnabled FIELD_SCOPE then
    match escapeFieldValue env writer tag FIELD_SCOPE_KIND_LONG,
          escapeFieldValue env writer tag FIELD_SCOPE with
    | some k, some v =>
      let r := mio_printf st.mio (scopeFmt st.sep scopeKey k v)
      { mio := r.1, sep := "", length := st.length + r.2 }
    | _, _ => st
  else st

/-- The type reference step of `addExtensionFields`. -/
def addTypeRefField (env : Env) (writer : tagWriter) (tag : tagEntryInfo) (st : extState) :
    Option extState :=
  if env.isFieldEnabled FIELD_TYPE_REF && env.doesFieldHaveValue FIELD_TYPE_REF tag then
    (escapeFieldValue env writer tag FIELD_TYPE_REF).map fun v =>
      let r := mio_printf st.mio (st.sep ++ "\t" ++ env.getFieldName FIELD_TYPE_REF ++ ":" ++ v)
      { mio := r.1, sep := "", length := st.length + r.2 }
  else
    some st

/-- The file scope step of `addExtensionFields`. -/
def addFileScopeField (env : Env) (tag : tagEntryInfo) (st : extState) : extState :=
  if env.isFieldEnabled FIELD_FILE_SCOPE && env.doesFieldHaveValue FIELD_FILE_SCOPE tag then
    let r := mio_printf st.mio (st.sep ++ "\t" ++ env.getFieldName FIELD_FILE_SCOPE ++ ":")
    { mio := r.1, sep := "", length := st.length + r.2 }
  else st

/-- The function `addExtensionFields`: its blocks in the order of the source,
run on the local state that starts with the separator `;"` and length 0. -/
def addExtensionFields (env : Env) (writer : tagWriter) (mio : MIO) (tag : tagEntryInfo) :
    Option ( MIO × Nat) :=
  let st : extState := { mio := mio, sep := ";\"", length := 0 }
  let st := addKindField env tag st
  let st := addLineNumberField env tag st
  (renderExtensionFieldMaybe env writer FIELD_LANGUAGE tag st).bind fun st =>
  let st := addScopeField env writer tag st
  (addTypeRefField env writer tag st).bind fun st =>
  let st := addFileScopeField env tag st
  (renderExtensionFieldMaybe env writer FIELD_INHERITANCE tag st).bind fun st =>
  (renderExtensionFieldMaybe env writer FIELD_ACCESS tag st).bind fun st =>
  (renderExtensionFieldMaybe env writer FIELD_IMPLEMENTATION tag st).bind fun st =>
  (renderExtensionFieldMaybe env writer FIELD_SIGNATURE tag st).bind fun st =>
  (renderExtensionFieldMaybe env writer FIELD_ROLES tag st).bind fun st =>
  (renderExtensionFieldMaybe env writer FIELD_EXTRAS tag st).bind fun st =>
  (renderExtensionFieldMaybe env writer FIELD_XPATH tag st).bind fun st =>
  (renderExtensionFieldMaybe env writer FIELD_END_LINE tag st).bind fun st =>
  some (st.mio, st.length)

/-- The location part of `writeCtagsEntry` (the `if (tag->lineNumberEntry)`
statement), with the `length +=` of its branches. -/
def writeLocation (env : Env) (writer : tagWriter) (mio : MIO) (tag : tagEntryInfo)
    (length : Nat) : Option ( MIO × Nat) :=
  if tag.lineNumberEntry then
    (writeLineNumberEntry env writer mio tag).map fun r => (r.1, length + r.2)
  else
    let r1 : MIO × Nat :=
      if env.Option.locate = exCmd.EX_COMBINE then
        let r := mio_printf mio
          (fmt_lu (tag.lineNumber + (if env.Option.backward then 1 else 2 ^ ULONG_BITS - 1)) ++ ";")
        (r.1, length + r.2)
      else (mio, length)
    (escapeFieldValue env writer tag FIELD_PATTERN).map fun p =>
      let r := mio_puts env r1.1 p
      (r.1, r1.2 + r.2)

/-- The extension part of `writeCtagsEntry` (the `if (includeExtensionFlags ())`
statement). -/
def writeExtensions (env : Env) (writer : tagWriter) (mio : MIO) (tag : tagEntryInfo)
    (length : Nat) : Option ( MIO × Nat) :=
  if env.includeExtensionFlags then
    (addExtensionFields env writer mio tag).bind fun r1 =>
    (addParserFields env writer r1.1 tag).map fun r2 =>
      (r2.1, length + r1.2 + r2.2)
  else
    some (mio, length)

/-- The function `writeCtagsEntry`: the writer after the call, the stream
after the call and the value returned. -/
def writeCtagsEntry (env : Env) (writer : tagWriter) (mio : MIO) (tag : tagEntryInfo) :
    Option (tagWriter × MIO × Nat) :=
  if writer.priv.isSome && hasTagEntryTabChar env tag then
    some ({ writer with priv := some { rejectionInThisInput := true } }, mio, 0)
  else
    (escapeFieldValue env writer tag FIELD_NAME).bind fun name =>
    (escapeFieldValue env writer tag FIELD_INPUT_FILE).bind fun inputFile =>
    let r := mio_printf mio (name ++ "\t" ++ inputFile ++ "\t")
    (writeLocation env writer r.1 tag r.2).bind fun r =>
    (writeExtensions env writer r.1 tag r.2).map fun r =>
    let r3 := mio_printf r.1 "\n"
    (writer, r3.1, r.2 + r3.2)

/-- The function `writeCtagsPtagEntry`. -/
def writeCtagsPtagEntry (env : Env) (mio : MIO) (desc : ptagDesc)
    (fileName pattern parserName : Option String) : MIO × Nat :=
  let OPT : Option String → String := fun x => x.getD ""
  match parserName with
  | some parserName =>
    mio_printf mio (env.PSEUDO_TAG_PREFIX ++ desc.name ++ env.PSEUDO_TAG_SEPARATOR ++ parserName
      ++ "\t" ++ OPT fileName ++ "\t" ++ OPT pattern ++ "\n")
  | none =>
    mio_printf mio (env.PSEUDO_TAG_PREFIX ++ desc.name
      ++ "\t" ++ OPT fileName ++ "\t/" ++ OPT pattern ++ "/\n")

/-- The function `treatFieldAsFixed`. -/
def treatFieldAsFixed (fieldType : fieldType) : Bool :=
  match fieldType with
  | FIELD_NAME => true
  | FIELD_INPUT_FILE => true
  | FIELD_PATTERN => true
  | _ => false

/-- The macro `CTAGS_FILE`. -/
def CTAGS_FILE : String := "tags"

/-- The members that the static initialiser of a `tagWriter` gives: the
functions of the writer (`NULL` for an absent one) and its default file name.
The members `type` and `private`, set when the writer is selected and its
stream is begun, are in `tagWriter`. -/
structure tagWriterMembers where
  writeEntry : Env → tagWriter → MIO → tagEntryInfo → Option (tagWriter × MIO × Nat)
  writePtagEntry : Env → MIO → ptagDesc → Option String → Option String → Option String
    → MIO × Nat
  preWriteEntry : Option (tagWriter → MIO → rejection)
  postWriteEntry : Option (tagWriter → MIO → String → Option Bool)
  treatFieldAsFixed : fieldType → Bool
  defaultFileName : String

/-- The writer `uCtagsWriter`. -/
def uCtagsWriter : tagWriterMembers :=
  { writeEntry := writeCtagsEntry,
    writePtagEntry := writeCtagsPtagEntry,
    preWriteEntry := none,
    postWriteEntry := none,
    treatFieldAsFixed := treatFieldAsFixed,
    defaultFileName := CTAGS_FILE }

/-- The writer `eCtagsWriter`. -/
def eCtagsWriter : tagWriterMembers :=
  { writeEntry := writeCtagsEntry,
    writePtagEntry := writeCtagsPtagEntry,
    preWriteEntry := some fun _ _ => beginECtagsFile,
    postWriteEntry := some fun writer _ _ => endECTagsFile writer,
    treatFieldAsFixed := treatFieldAsFixed,
    defaultFileName := CTAGS_FILE }

/-- The calls of `writeCtagsEntry` on the entries of a stream, in order, each
one on the writer and the stream that the previous one left. -/
def writeEntries (env : Env) : tagWriter → MIO → List tagEntryInfo → Option (tagWriter × MIO)
  | writer, mio, [] => some (writer, mio)
  | writer, mio, tag :: tags =>
    (writeCtagsEntry env writer mio tag).bind fun r => writeEntries env r.1 r.2.1 tags

/-! ## The segments of a record, as the specification words them -/

/-- Concatenation of a list of segments, in order. -/
def catSegments : List String → String
  | [] => ""
  | s :: rest => s ++ catSegments rest

/-- The extension block made of the segments `segs`: nothing when there is no
segment, otherwise the marker `;"` once, followed by the segments. -/
def extensionBlock (segs : List String) : String :=
  if segs = [] then "" else ";\"" ++ catSegments segs

/-- The kind segment: a tab, the kind key and a colon when the kind key flag
is enabled, and the kind string; absent when no kind string is chosen. -/
def kindSegment (env : Env) (tag : tagEntryInfo) : Option String :=
  (kindString env (env.getLanguageKind tag.langType tag.kindIndex)).map fun str =>
    "\t" ++ (if env.isFieldEnabled FIELD_KIND_KEY then env.getFieldName FIELD_KIND_KEY ++ ":"
             else "") ++ str

/-- The line number segment of the extension block. -/
def lineNumberSegment (env : Env) (tag : tagEntryInfo) : Option String :=
  if env.isFieldEnabled FIELD_LINE_NUMBER && env.doesFieldHaveValue FIELD_LINE_NUMBER tag then
    some ("\t" ++ env.getFieldName FIELD_LINE_NUMBER ++ ":" ++ fmt_ld tag.lineNumber)
  else none

/-- The scope segment: written when Scope is enabled and both the scope kind
and the scope name render to a value. -/
def scopeSegment (env : Env) (writer : tagWriter) (tag : tagEntryInfo) : Option String :=
  if env.isFieldEnabled FIELD_SCOPE then
    match escapeFieldValue env writer tag FIELD_SCOPE_KIND_LONG,
          escapeFieldValue env writer tag FIELD_SCOPE with
    | some k, some v =>
      some ("\t" ++ (if env.isFieldEnabled FIELD_SCOPE_KEY then
                       env.getFieldName FIELD_SCOPE_KEY ++ ":" else "") ++ k ++ ":" ++ v)
    | _, _ => none
  else none

/-- The file scope segment: a tab, the key and a colon, without a value. -/
def fileScopeSegment (env : Env) (tag : tagEntryInfo) : Option String :=
  if env.isFieldEnabled FIELD_FILE_SCOPE && env.doesFieldHaveValue FIELD_FILE_SCOPE tag then
    some ("\t" ++ env.getFieldName FIELD_FILE_SCOPE ++ ":")
  else none

/-- The segment `\t<key>:<value>` of an extension field that is enabled and has
a value; `some none` when the field is not written, `none` when the value to
print is `NULL`. -/
def fieldSegment (env : Env) (writer : tagWriter) (tag : tagEntryInfo) (ft : fieldType) :
    Option (Option String) :=
  if env.isFieldEnabled ft && env.doesFieldHaveValue ft tag then
    (escapeFieldValue env writer tag ft).map fun v =>
      some ("\t" ++ env.getFieldName ft ++ ":" ++ v)
  else some none

/-- The segments that are present, in order; `none` as soon as one of them is
undefined. -/
def presentSegments : List (Option (Option String)) → Option (List String)
  | [] => some []
  | x :: rest =>
    x.bind fun seg => (presentSegments rest).map fun segs => seg.toList ++ segs

/-- The extension fields that follow the kind, in the order of the
specification: LineNumber, Language, Scope, TypeRef, FileScope, Inheritance,
Access, Implementation, Signature, Roles, Extras, XPath, EndLine. -/
def segmentsAfterKind (env : Env) (writer : tagWriter) (tag : tagEntryInfo) :
    List (Option (Option String)) :=
  [ some (lineNumberSegment env tag),
    fieldSegment env writer tag FIELD_LANGUAGE,
    some (scopeSegment env writer tag),
    fieldSegment env writer tag FIELD_TYPE_REF,
    some (fileScopeSegment env tag),
    fieldSegment env writer tag FIELD_INHERITANCE,
    fieldSegment env writer tag FIELD_ACCESS,
    fieldSegment env writer tag FIELD_IMPLEMENTATION,
    fieldSegment env writer tag FIELD_SIGNATURE,
    fieldSegment env writer tag FIELD_ROLES,
    fieldSegment env writer tag FIELD_EXTRAS,
    fieldSegment env writer tag FIELD_XPATH,
    fieldSegment env writer tag FIELD_END_LINE ]

/-- The built-in extension segments of a tag, in the order of the
specification, Kind first. -/
def extensionSegments (env : Env) (writer : tagWriter) (tag : tagEntryInfo) :
    Option (List String) :=
  presentSegments (some (kindSegment env tag) :: segmentsAfterKind env writer tag)

/-- The segments of the enabled parser fields `fs`, attached from index `i`
on, in the order in which they were attached. -/
def parserSegmentsFrom (env : Env) (writer : tagWriter) (tag : tagEntryInfo) :
    Nat → List tagField → Option (List String)
  | _, [] => some []
  | i, f :: fs =>
    if env.isFieldEnabled f.ftype then
      (escapeFieldValueFull env writer tag f.ftype (i : Int)).bind fun v =>
        (parserSegmentsFrom env writer tag (i + 1) fs).map fun segs =>
          ("\t" ++ env.getFieldName f.ftype ++ ":" ++ v) :: segs
    else parserSegmentsFrom env writer tag (i + 1) fs

/-- The segments of the enabled parser fields of a tag. -/
def parserSegments (env : Env) (writer : tagWriter) (tag : tagEntryInfo) :
    Option (List String) :=
  parserSegmentsFrom env writer tag 0 tag.parserFields

/-- The location field of a record. -/
def locationField (env : Env) (writer : tagWriter) (tag : tagEntryInfo) : Option String :=
  if tag.lineNumberEntry then
    if env.Option.lineDirectives then escapeFieldValue env writer tag FIELD_LINE_NUMBER
    else some (Nat.repr (tag.lineNumber % 2 ^ 64))
  else if env.Option.locate = exCmd.EX_COMBINE then
    (escapeFieldValue env writer tag FIELD_PATTERN).map fun p =>
      Nat.repr ((tag.lineNumber + (if env.Option.backward then 1 else 2 ^ 64 - 1)) % 2 ^ 64)
        ++ ";" ++ p
  else escapeFieldValue env writer tag FIELD_PATTERN

/-- What follows the location field in a record: the extension block and the
parser segments when extension output is enabled, nothing otherwise. -/
def extensionPart (env : Env) (writer : tagWriter) (tag : tagEntryInfo) : Option String :=
  if env.includeExtensionFlags then
    (extensionSegments env writer tag).bind fun segs =>
      (parserSegments env writer tag).map fun psegs =>
        extensionBlock segs ++ catSegments psegs
  else some ""

/-- Whether `writeCtagsEntry` takes its rejecting branch. -/
def rejects (env : Env) (writer : tagWriter) (tag : tagEntryInfo) : Bool :=
  writer.priv.isSome && hasTagEntryTabChar env tag

/-- The text before the first tab of `s`, and the text after that tab. -/
def splitAtTab (s : String) : String × String :=
  (String.mk (s.data.takeWhile (· ≠ '\t')), String.mk ((s.data.dropWhile (· ≠ '\t')).drop 1))

/-! ## Auxiliary definitions for the proofs -/

/-- Writing one optional segment on the local state of `addExtensionFields`. -/
def emitSegment (seg : Option String) (st : extState) : extState :=
  match seg with
  | none => st
  | some s =>
    { mio := ⟨st.mio.buf ++ (st.sep ++ s)⟩, sep := "", length := st.length + (st.sep ++ s).length }

/-- Writing a list of optional segments in order, stopping at an undefined one. -/
def emitSegments : List (Option (Option String)) → extState → Option extState
  | [], st => some st
  | x :: rest, st => x.bind fun seg => emitSegments rest (emitSegment seg st)

/-- The state reached by writing the segments `segs` from the state `st`: the
separator of `st` is written once, before the first segment. -/
def afterSegments (segs : List String) (st : extState) : extState :=
  if segs = [] then st
  else
    { mio := ⟨st.mio.buf ++ (st.sep ++ catSegments segs)⟩, sep := "",
      length := st.length + (st.sep ++ catSegments segs).length }

/-- The text of a record: rendered name, tab, rendered input file, tab,
location field, extension part; `none` when one of them is undefined. -/
def recordBody (env : Env) (writer : tagWriter) (tag : tagEntryInfo) : Option String :=
  (escapeFieldValue env writer tag FIELD_NAME).bind fun name =>
  (escapeFieldValue env writer tag FIELD_INPUT_FILE).bind fun inputFile =>
  (locationField env writer tag).bind fun loc =>
  (extensionPart env writer tag).map fun ext =>
    name ++ "\t" ++ inputFile ++ "\t" ++ loc ++ ext

/-- The records of the entries of a stream that pass the tab check, each
followed by its newline, in order. -/
def acceptedRecords (env : Env) (writer : tagWriter) (tags : List tagEntryInfo) : List String :=
  tags.filterMap fun tag =>
    if hasTagEntryTabChar env tag then none
    else (recordBody env writer tag).map fun body => body ++ "\n"

/-- The call `writeCtagsEntry` returns, leaves the writer as it was and
appends to the stream the text `record` followed by one newline (the value
returned is left aside). -/
def writesRecord (env : Env) (writer : tagWriter) (mio : MIO) (tag : tagEntryInfo)
    (record : String) : Prop :=
  (writeCtagsEntry env writer mio tag).map (fun r => (r.1, r.2.1))
    = some (writer, ⟨mio.buf ++ record ++ "\n"⟩)

instance (env : Env) (writer : tagWriter) (mio : MIO) (tag : tagEntryInfo) (record : String) :
    Decidable (writesRecord env writer mio tag record) :=
  inferInstanceAs (Decidable (_ = _))

/-! ## A sample environment

A small field registry in the manner of `field.c`, used to evaluate the writer
on concrete entries. -/

/-- Whether a string contains a tab. -/
def containsTab (s : String) : Bool :=
  s.data.contains '\t'

/-- The sample renderers: the fixed fields and the line number come from the
entry, the language is `C`, the scope is `struct:S`, the signature is `(void)`,
a parser field renders its attached value; the other fields render nothing. -/
def sampleRender (language : String) (ft : fieldType) (tag : tagEntryInfo) (index : Int) :
    Option String :=
  match ft with
  | FIELD_NAME => some tag.name
  | FIELD_INPUT_FILE => some tag.inputFile
  | FIELD_PATTERN => some tag.pattern
  | FIELD_LINE_NUMBER => some (Nat.repr tag.lineNumber)
  | FIELD_LANGUAGE => some language
  | FIELD_SCOPE_KIND_LONG => some "struct"
  | FIELD_SCOPE => some "S"
  | FIELD_SIGNATURE => some "(void)"
  | FIELD_FILE_SCOPE => some ""
  | FIELD_PARSER _ => (tag.parserFields.get? index.toNat).map fun f => f.value
  | _ => none

/-- The sample field names. -/
def sampleFieldName (ft : fieldType) : String :=
  match ft with
  | FIELD_NAME => "name"
  | FIELD_INPUT_FILE => "input"
  | FIELD_PATTERN => "pattern"
  | FIELD_FILE_SCOPE => "file"
  | FIELD_KIND_LONG => "kind"
  | FIELD_KIND => "kind"
  | FIELD_KIND_KEY => "kind"
  | FIELD_LANGUAGE => "language"
  | FIELD_LINE_NUMBER => "line"
  | FIELD_SCOPE => "scope"
  | FIELD_SCOPE_KEY => "scope"
  | FIELD_SCOPE_KIND_LONG => "scopeKind"
  | FIELD_TYPE_REF => "typeref"
  | FIELD_ACCESS => "access"
  | FIELD_IMPLEMENTATION => "implementation"
  | FIELD_INHERITANCE => "inherits"
  | FIELD_SIGNATURE => "signature"
  | FIELD_ROLES => "roles"
  | FIELD_EXTRAS => "extras"
  | FIELD_XPATH => "xpath"
  | FIELD_END_LINE => "end"
  | FIELD_PARSER _ => "properties"

/-- The sample environment: the fields `enabled` are enabled, a field has a
value when it renders to one, and it has a tab when its rendered value
contains one; the only kind is `f`, `function`. -/
def sampleEnv (enabled : List fieldType) (extension : Bool) (options : optionValues)
    (language : String) : Env where
  isFieldEnabled := fun ft => enabled.contains ft
  doesFieldHaveValue := fun ft tag => (sampleRender language ft tag NO_PARSER_FIELD).isSome
  doesFieldHaveTabChar := fun ft tag index =>
    match sampleRender language ft tag index with
    | some v => containsTab v
    | none => false
  doesFieldHaveRenderer := fun _ _ => false
  renderField := sampleRender language
  renderFieldNoEscaping := sampleRender language
  getFieldName := sampleFieldName
  getLanguageKind := fun _ _ => { letter := 'f', name := some "function" }
  includeExtensionFlags := extension
  PSEUDO_TAG_PREFIX := "!_"
  PSEUDO_TAG_SEPARATOR := "!"
  mio_puts_result := fun s => s.length
  Option := options

/-- The sample options: no line directives, patterns, forward search. -/
def sampleOptions : optionValues :=
  { lineDirectives := false, locate := exCmd.EX_PATTERN, backward := false }

/-- The sample entry: the function `main` of `main.c`, located by a pattern. -/
def sampleTag : tagEntryInfo :=
  { lineNumberEntry := false, lineNumber := 12, langType := 0, kindIndex := 0,
    name := "main", inputFile := "main.c", pattern := "/^int main (void)$/",
    parserFields := [] }

/-- The sample writer with rejection state: `eCtagsWriter`, selected under
the type `WRITER_E_CTAGS`, with the private data that `beginECtagsFile`
returns. -/
def sampleWriter : tagWriter :=
  { type := writerType.WRITER_E_CTAGS, priv := some beginECtagsFile,
    defaultFileName := eCtagsWriter.defaultFileName }

/-- The sample writer without rejection state: `uCtagsWriter`, selected under
the type `WRITER_U_CTAGS`; it has no `preWriteEntry`, so its private data is
`NULL`. -/
def sampleUWriter : tagWriter :=
  { type := writerType.WRITER_U_CTAGS, priv := none,
    defaultFileName := uCtagsWriter.defaultFileName }

/-- The escaped form of a text in the sample registry: a backslash is doubled
and a tab becomes a backslash and `t`. -/
def sampleEscape (s : String) : String :=
  String.mk (s.data.flatMap fun c =>
    if c = '\\' then ['\\', '\\'] else if c = '\t' then ['\\', 't'] else [c])

/-- The sample environment with escaping: `renderField` gives the escaped
form of the sample rendering, `renderFieldNoEscaping` the rendering itself,
and the fields that declare a renderer without escaping are Name and
InputFile. -/
def escapingEnv (enabled : List fieldType) (extension : Bool) (options : optionValues) : Env :=
  { sampleEnv enabled extension options "C" with
    doesFieldHaveRenderer := fun ft noEscaping =>
      !noEscaping || ft = FIELD_NAME || ft = FIELD_INPUT_FILE
    renderField := fun ft tag index => (sampleRender "C" ft tag index).map sampleEscape }

/-- An environment in which only the Language field is enabled and the name
of the language contains a tab. -/
def tabLanguageEnv : Env :=
  sampleEnv [FIELD_LANGUAGE] true sampleOptions "C\t++"

/-- A sample stream: the sample entry, an entry whose name has a tab, and the
entry `f`. -/
def sampleStream : List tagEntryInfo :=
  [sampleTag, { sampleTag with name := "ma\tin" }, { sampleTag with name := "f" }]

/-- The sample entry with one parser field attached whose value has a tab. -/
def tabParserFieldTag : tagEntryInfo :=
  { sampleTag with parserFields := [{ ftype := FIELD_PARSER 0, value := "a\tb" }] }

/-- The sample entry with one parser field attached, `properties:static`. -/
def parserFieldTag : tagEntryInfo :=
  { sampleTag with parserFields := [{ ftype := FIELD_PARSER 0, value := "static" }] }

/-! ## The HTML parser (`parsers/html.c`)

The parser registers two rules with `addTagRegex`.  The pattern extraction
engine itself (`lregex.c` and the regular expression library) is not among
the sources; it is modelled from the specification. -/

/-- Modelled from the spec: whether the input character `c` matches the
pattern character `p`; without regard to case when the rule asks for it
(the engine is not among the sources). -/
def charMatches (icase : Bool) (p c : Char) : Bool :=
  c == p || (icase && (c == p.toLower || c == p.toUpper))

/-- Modelled from the spec: matching ordinary characters at the start of the
input; the rest of the input when they match (the engine is not among the
sources). -/
def dropLit (icase : Bool) : List Char → List Char → Option (List Char)
  | [], s => some s
  | _ :: _, [] => none
  | p :: ps, c :: cs => if charMatches icase p c then dropLit icase ps cs else none

theorem addKindField_eq (env : Env) (tag : tagEntryInfo) (st : extState) :
    addKindField env tag st = emitSegment (kindSegment env tag) st := by
  unfold addKindField kindSegment emitSegment mio_printf
  cases hk : kindString env (env.getLanguageKind tag.langType tag.kindIndex) with
  | none => simp [hk]
  | some str =>
    by_cases h : env.isFieldEnabled FIELD_KIND_KEY = true <;>
      simp [hk, h, String.append_assoc]

theorem addLineNumberField_eq (env : Env) (tag : tagEntryInfo) (st : extState) :
    addLineNumberField env tag st = emitSegment (lineNumberSegment env tag) st := by
  unfold addLineNumberField lineNumberSegment emitSegment mio_printf
  split <;> simp [String.append_assoc]

theorem addScopeField_eq (env : Env) (writer : tagWriter) (tag : tagEntryInfo) (st : extState) :
    addScopeField env writer tag st = emitSegment (scopeSegment env writer tag) st := by
  unfold addScopeField scopeSegment emitSegment mio_printf
  by_cases hs : env.isFieldEnabled FIELD_SCOPE = true
  · cases hk : escapeFieldValue env writer tag FIELD_SCOPE_KIND_LONG <;>
      cases hv : escapeFieldValue env writer tag FIELD_SCOPE <;>
      by_cases h : env.isFieldEnabled FIELD_SCOPE_KEY = true <;>
      simp [hs, h, String.append_assoc]
  · simp [hs]

theorem addFileScopeField_eq (env : Env) (tag : tagEntryInfo) (st : extState) :
    addFileScopeField env tag st = emitSegment (fileScopeSegment env tag) st := by
  unfold addFileScopeField fileScopeSegment emitSegment mio_printf
  split <;> simp [String.append_assoc]

theorem renderExtensionFieldMaybe_eq (env : Env) (writer : tagWriter) (ft : fieldType)
    (tag : tagEntryInfo) (st : extState) :
    renderExtensionFieldMaybe env writer ft tag st
      = (fieldSegment env writer tag ft).map fun seg => emitSegment seg st := by
  unfold renderExtensionFieldMaybe fieldSegment emitSegment mio_printf
  split
  · cases hv : escapeFieldValue env writer tag ft <;> simp [hv, String.append_assoc]
  · simp

theorem addTypeRefField_eq (env : Env) (writer : tagWriter) (tag : tagEntryInfo)
    (st : extState) :
    addTypeRefField env writer tag st
      = (fieldSegment env writer tag FIELD_TYPE_REF).map fun seg => emitSegment seg st := by
  unfold addTypeRefField fieldSegment emitSegment mio_printf
  split
  · cases hv : escapeFieldValue env writer tag FIELD_TYPE_REF <;>
      simp [hv, String.append_assoc]
  · simp

theorem addExtensionFields_emit (env : Env) (writer : tagWriter) (mio : MIO)
    (tag : tagEntryInfo) :
    addExtensionFields env writer mio tag
      = (emitSegments (some (kindSegment env tag) :: segmentsAfterKind env writer tag)
          { mio := mio, sep := ";\"", length := 0 }).map fun st => (st.mio, st.length) := by
  simp only [addExtensionFields, addKindField_eq, addLineNumberField_eq, addScopeField_eq,
    addFileScopeField_eq, renderExtensionFieldMaybe_eq, addTypeRefField_eq, segmentsAfterKind,
    emitSegments, Option.some_bind]
  simp only [Option.map_eq_bind, Option.bind_assoc, Function.comp_apply, Option.some_bind]

theorem catSegments_append (a b : List String) :
    catSegments (a ++ b) = catSegments a ++ catSegments b := by
  induction a with
  | nil => simp [catSegments]
  | cons x xs ih => simp [catSegments, ih, String.append_assoc]

theorem afterSegments_emit (seg : Option String) (segs : List String) (st : extState) :
    afterSegments segs (emitSegment seg st) = afterSegments (seg.toList ++ segs) st := by
  cases seg with
  | none => simp [emitSegment]
  | some s =>
    by_cases h : segs = []
    · subst h
      simp [emitSegment, afterSegments, catSegments]
    · simp [emitSegment, afterSegments, catSegments, h, String.append_assoc, Nat.add_assoc]

theorem emitSegments_eq (l : List (Option (Option String))) (st : extState) :
    emitSegments l st = (presentSegments l).map fun segs => afterSegments segs st := by
  induction l generalizing st with
  | nil => simp [emitSegments, presentSegments, afterSegments]
  | cons x rest ih =>
    cases x with
    | none => simp [emitSegments, presentSegments]
    | some seg =>
      simp only [emitSegments, presentSegments, Option.some_bind, ih, Option.map_map]
      congr 1
      funext segs
      exact afterSegments_emit seg segs st

/-- The function `addExtensionFields` appends the extension block of the
built-in segments and returns its length; it is undefined exactly when one
of the segments is. -/
theorem addExtensionFields_eq (env : Env) (writer : tagWriter) (mio : MIO)
    (tag : tagEntryInfo) :
    addExtensionFields env writer mio tag
      = (extensionSegments env writer tag).map fun segs =>
          (⟨mio.buf ++ extensionBlock segs⟩, (extensionBlock segs).length) := by
  rw [addExtensionFields_emit, emitSegments_eq, extensionSegments, Option.map_map]
  congr 1
  funext segs
  by_cases h : segs = [] <;> simp [afterSegments, extensionBlock, h]

theorem addParserFieldsLoop_eq (env : Env) (writer : tagWriter) (tag : tagEntryInfo)
    (fs : List tagField) (i : Nat) (mio : MIO) (length : Nat) :
    addParserFieldsLoop env writer tag i fs mio length
      = (parserSegmentsFrom env writer tag i fs).map fun segs =>
          (⟨mio.buf ++ catSegments segs⟩, length + (catSegments segs).length) := by
  induction fs generalizing i mio length with
  | nil => simp [addParserFieldsLoop, parserSegmentsFrom, catSegments]
  | cons f fs ih =>
    by_cases he : env.isFieldEnabled f.ftype = true
    · cases hv : escapeFieldValueFull env writer tag f.ftype (i : Int) with
      | none => simp [addParserFieldsLoop, parserSegmentsFrom, he, hv]
      | some v =>
        simp only [addParserFieldsLoop, parserSegmentsFrom, he, hv, ih, mio_printf,
          Option.some_bind, Option.map_map, Bool.not_true, Bool.false_eq_true, if_false, if_true]
        congr 1
        funext segs
        simp [catSegments, String.append_assoc, Nat.add_assoc]
    · simp [addParserFieldsLoop, parserSegmentsFrom, he, ih]

/-- The function `addParserFields` appends the segments of the enabled parser
fields, without a separator, and returns their length. -/
theorem addParserFields_eq (env : Env) (writer : tagWriter) (mio : MIO) (tag : tagEntryInfo) :
    addParserFields env writer mio tag
      = (parserSegments env writer tag).map fun segs =>
          (⟨mio.buf ++ catSegments segs⟩, (catSegments segs).length) := by
  simp [addParserFields, parserSegments, addParserFieldsLoop_eq]

/-! ## The record written by `writeCtagsEntry` -/

theorem writeLocation_buf (env : Env) (writer : tagWriter) (mio : MIO) (tag : tagEntryInfo)
    (length : Nat) :
    (writeLocation env writer mio tag length).map (fun r => r.1)
      = (locationField env writer tag).map fun loc => ⟨mio.buf ++ loc⟩ := by
  unfold writeLocation locationField writeLineNumberEntry mio_puts mio_printf fmt_lu ULONG_BITS
  by_cases h1 : tag.lineNumberEntry = true
  · by_cases h2 : env.Option.lineDirectives = true
    · cases hv : escapeFieldValue env writer tag FIELD_LINE_NUMBER <;> simp [h1, h2, hv]
    · simp [h1, h2]
  · by_cases h3 : env.Option.locate = exCmd.EX_COMBINE
    · cases hv : escapeFieldValue env writer tag FIELD_PATTERN <;>
        simp [h1, h3, hv, String.append_assoc]
    · cases hv : escapeFieldValue env writer tag FIELD_PATTERN <;> simp [h1, h3, hv]

theorem writeExtensions_buf (env : Env) (writer : tagWriter) (mio : MIO) (tag : tagEntryInfo)
    (length : Nat) :
    (writeExtensions env writer mio tag length).map (fun r => r.1)
      = (extensionPart env writer tag).map fun ext => ⟨mio.buf ++ ext⟩ := by
  unfold writeExtensions extensionPart
  by_cases h : env.includeExtensionFlags = true
  · simp only [h, if_true, addExtensionFields_eq, addParserFields_eq]
    cases extensionSegments env writer tag with
    | none => simp
    | some segs =>
      cases parserSegments env writer tag with
      | none => simp
      | some psegs => simp [String.append_assoc]
  · simp [h]

/-- An entry that is not rejected: the stream receives the text of the record
followed by one newline, the writer is unchanged, and the call is undefined
exactly when a value to print is `NULL`. -/
theorem writeCtagsEntry_accepted (env : Env) (writer : tagWriter) (mio : MIO)
    (tag : tagEntryInfo) (hacc : rejects env writer tag = false) :
    (writeCtagsEntry env writer mio tag).map (fun r => (r.1, r.2.1))
      = (recordBody env writer tag).map fun body => (writer, ⟨mio.buf ++ body ++ "\n"⟩) := by
  unfold rejects at hacc
  unfold writeCtagsEntry recordBody
  rw [hacc]
  simp only [Bool.false_eq_true, if_false]
  cases hn : escapeFieldValue env writer tag FIELD_NAME with
  | none => simp
  | some name =>
    cases hf : escapeFieldValue env writer tag FIELD_INPUT_FILE with
    | none => simp
    | some inputFile =>
      simp only [Option.some_bind]
      have hl := writeLocation_buf env writer
        (mio_printf mio (name ++ "\t" ++ inputFile ++ "\t")).1 tag
        (mio_printf mio (name ++ "\t" ++ inputFile ++ "\t")).2
      cases hloc : locationField env writer tag with
      | none =>
        rw [hloc] at hl
        cases hw : writeLocation env writer
            (mio_printf mio (name ++ "\t" ++ inputFile ++ "\t")).1 tag
            (mio_printf mio (name ++ "\t" ++ inputFile ++ "\t")).2 with
        | none => simp
        | some r => rw [hw] at hl; simp at hl
      | some loc =>
        rw [hloc] at hl
        cases hw : writeLocation env writer
            (mio_printf mio (name ++ "\t" ++ inputFile ++ "\t")).1 tag
            (mio_printf mio (name ++ "\t" ++ inputFile ++ "\t")).2 with
        | none => rw [hw] at hl; simp at hl
        | some r =>
          rw [hw] at hl
          simp only [Option.map_some', Option.some.injEq] at hl
          simp only [Option.some_bind]
          have he := writeExtensions_buf env writer r.1 tag r.2
          cases hext : extensionPart env writer tag with
          | none =>
            rw [hext] at he
            cases hx : writeExtensions env writer r.1 tag r.2 with
            | none => simp
            | some r2 => rw [hx] at he; simp at he
          | some ext =>
            rw [hext] at he
            cases hx : writeExtensions env writer r.1 tag r.2 with
            | none => rw [hx] at he; simp at he
            | some r2 =>
              rw [hx] at he
              simp only [Option.map_some', Option.some.injEq] at he
              simp [mio_printf, he, hl, String.append_assoc]

/-- A rejected entry: nothing is written, 0 is returned and the flag is set. -/
theorem writeCtagsEntry_rejected (env : Env) (writer : tagWriter) (mio : MIO)
    (tag : tagEntryInfo) (hrej : rejects env writer tag = true) :
    writeCtagsEntry env writer mio tag
      = some ({ writer with priv := some { rejectionInThisInput := true } }, mio, 0) := by
  unfold rejects at hrej
  unfold writeCtagsEntry
  rw [hrej]
  simp

/-- An accepted entry whose record text is `body`: the call returns, and the
stream has received `body` and a newline. -/
theorem writeCtagsEntry_record (env : Env) (writer : tagWriter) (mio : MIO)
    (tag : tagEntryInfo) (body : String) (hacc : rejects env writer tag = false)
    (hbody : recordBody env writer tag = some body) :
    ∃ n, writeCtagsEntry env writer mio tag = some (writer, ⟨mio.buf ++ body ++ "\n"⟩, n) := by
  have h := writeCtagsEntry_accepted env writer mio tag hacc
  rw [hbody] at h
  cases hw : writeCtagsEntry env writer mio tag with
  | none => rw [hw] at h; simp at h
  | some r =>
    rw [hw] at h
    simp only [Option.map_some', Option.some.injEq, Prod.mk.injEq] at h
    exact ⟨r.2.2, by rw [← h.1, ← h.2]⟩

/-! ## Rejection (C1) -/

theorem hasTabCharInParserFields_of_mem (env : Env) (tag : tagEntryInfo)
    (fs : List tagField) (i j : Nat) (f : tagField) (hf : fs.get? j = some f)
    (hen : env.isFieldEnabled f.ftype = true)
    (htab : env.doesFieldHaveTabChar f.ftype tag ((i + j : Nat) : Int) = true) :
    hasTabCharInParserFields env tag i fs = true := by
  induction fs generalizing i j with
  | nil => simp at hf
  | cons g gs ih =>
    unfold hasTabCharInParserFields
    cases j with
    | zero =>
      simp only [List.get?_cons_zero, Option.some.injEq] at hf
      subst hf
      simp only [Nat.add_zero] at htab
      simp [hen, htab]
    | succ j =>
      simp only [List.get?_cons_succ] at hf
      have h := ih (i + 1) j hf (by rw [Nat.add_assoc, Nat.add_comm 1 j]; exact htab)
      simp [h]

/-- C1, as stated, fails: with extension output on, the Language field
enabled, having a value and containing a tab, the writer with rejection state
does not reject the entry; it writes the record, tab included, and leaves the
flag false. -/
theorem C1_counterexample :
    sampleWriter.priv = some { rejectionInThisInput := false }
    ∧ tabLanguageEnv.includeExtensionFlags = true
    ∧ tabLanguageEnv.isFieldEnabled FIELD_LANGUAGE = true
    ∧ tabLanguageEnv.doesFieldHaveValue FIELD_LANGUAGE sampleTag = true
    ∧ tabLanguageEnv.doesFieldHaveTabChar FIELD_LANGUAGE sampleTag NO_PARSER_FIELD = true
    ∧ (tabLanguageEnv.renderField FIELD_LANGUAGE sampleTag NO_PARSER_FIELD).map containsTab
        = some true
    ∧ writeCtagsEntry tabLanguageEnv sampleWriter ⟨""⟩ sampleTag
        = some (sampleWriter,
            ⟨"main\tmain.c\t/^int main (void)$/;\"\tlanguage:C\t++\n"⟩, 48) := by
  decide

/-- C1, amended: for a writer with rejection state, an entry is rejected
(nothing is written, 0 is returned, the flag of the stream is true afterwards)
as soon as `doesFieldHaveTabChar` reports a tab in Name, in InputFile, in the
LineNumber text of a line-number-anchored entry when line directives are on,
in the Pattern of a pattern-anchored entry, or, when extension output is on,
in an enabled extension field that has a value among Scope (its kind or its
name), TypeRef, FileScope, Inheritance, Access, Implementation, Signature,
Roles, Extras, XPath and EndLine, or in an enabled parser field.  Kind,
LineNumber and Language are not among the extension fields examined. -/
theorem C1_rejects_entry_with_tab (env : Env) (writer : tagWriter) (mio : MIO)
    (tag : tagEntryInfo) (rej : rejection) (hpriv : writer.priv = some rej)
    (htab :
      env.doesFieldHaveTabChar FIELD_NAME tag NO_PARSER_FIELD = true
      ∨ env.doesFieldHaveTabChar FIELD_INPUT_FILE tag NO_PARSER_FIELD = true
      ∨ (tag.lineNumberEntry = true ∧ env.Option.lineDirectives = true
          ∧ env.doesFieldHaveTabChar FIELD_LINE_NUMBER tag NO_PARSER_FIELD = true)
      ∨ (tag.lineNumberEntry = false
          ∧ env.doesFieldHaveTabChar FIELD_PATTERN tag NO_PARSER_FIELD = true)
      ∨ (env.includeExtensionFlags = true ∧ env.isFieldEnabled FIELD_SCOPE = true
          ∧ env.doesFieldHaveValue FIELD_SCOPE tag = true
          ∧ (env.doesFieldHaveTabChar FIELD_SCOPE_KIND_LONG tag NO_PARSER_FIELD = true
              ∨ env.doesFieldHaveTabChar FIELD_SCOPE tag NO_PARSER_FIELD = true))
      ∨ (env.includeExtensionFlags = true
          ∧ ∃ f ∈ [FIELD_TYPE_REF, FIELD_FILE_SCOPE, FIELD_INHERITANCE, FIELD_ACCESS,
                    FIELD_IMPLEMENTATION, FIELD_SIGNATURE, FIELD_ROLES, FIELD_EXTRAS,
                    FIELD_XPATH, FIELD_END_LINE],
              env.isFieldEnabled f = true ∧ env.doesFieldHaveValue f tag = true
                ∧ env.doesFieldHaveTabChar f tag NO_PARSER_FIELD = true)
      ∨ (∃ i f, tag.parserFields.get? i = some f ∧ env.isFieldEnabled f.ftype = true
            ∧ env.doesFieldHaveTabChar f.ftype tag (i : Int) = true)) :
    writeCtagsEntry env writer mio tag
      = some ({ writer with priv := some { rejectionInThisInput := true } }, mio, 0) := by
  apply writeCtagsEntry_rejected
  unfold rejects
  rw [hpriv]
  simp only [Option.isSome_some, Bool.true_and]
  unfold hasTagEntryTabChar
  rcases htab with h | h | ⟨h1, h2, h3⟩ | ⟨h1, h2⟩ | ⟨h1, h2, h3, h4⟩ | ⟨h1, f, hf, h2, h3, h4⟩
      | ⟨i, f, hf, h2, h3⟩
  · simp [h]
  · simp [h]
  · simp [h1, h2, h3]
  · simp [h1, h2]
  · rcases h4 with h4 | h4 <;> simp [h1, h2, h3, h4]
  · simp only [List.mem_cons, List.mem_singleton, List.not_mem_nil, or_false] at hf
    rcases hf with rfl | rfl | rfl | rfl | rfl | rfl | rfl | rfl | rfl | rfl <;>
      simp [h1, h2, h3, h4]
  · have hp := hasTabCharInParserFields_of_mem env tag tag.parserFields 0 i f hf h2
      (by simpa using h3)
    simp [hp]

/-- The amended C1 at a concrete entry: the name of the sample entry is given a
tab, and the entry is rejected. -/
theorem C1_rejects_entry_with_tab_witness :
    writeCtagsEntry (sampleEnv [] false sampleOptions "C") sampleWriter ⟨"x\n"⟩
        { sampleTag with name := "ma\tin" }
      = some ({ sampleWriter with priv := some { rejectionInThisInput := true } },
          ⟨"x\n"⟩, 0) :=
  C1_rejects_entry_with_tab (sampleEnv [] false sampleOptions "C") sampleWriter ⟨"x\n"⟩
    { sampleTag with name := "ma\tin" } { rejectionInThisInput := false } rfl
    (Or.inl (by decide))

/-! ## Round trip of the fixed fields (C2) -/

theorem takeWhile_ne_tab (l r : List Char) (h : '\t' ∉ l) :
    (l ++ '\t' :: r).takeWhile (· ≠ '\t') = l := by
  induction l with
  | nil => simp
  | cons c cs ih =>
    have hc : c ≠ '\t' := fun e => h (by simp [e])
    have hcs : '\t' ∉ cs := fun e => h (by simp [e])
    have ih2 := ih hcs
    simp at ih2
    simp [List.takeWhile, hc, ih2]

theorem dropWhile_ne_tab (l r : List Char) (h : '\t' ∉ l) :
    (l ++ '\t' :: r).dropWhile (· ≠ '\t') = '\t' :: r := by
  induction l with
  | nil => simp
  | cons c cs ih =>
    have hc : c ≠ '\t' := fun e => h (by simp [e])
    have hcs : '\t' ∉ cs := fun e => h (by simp [e])
    have ih2 := ih hcs
    simp at ih2
    simp [List.dropWhile, hc, ih2]

theorem splitAtTab_append (a r : String) (h : '\t' ∉ a.data) :
    splitAtTab (a ++ "\t" ++ r) = (a, r) := by
  have hd : (a ++ "\t" ++ r).data = a.data ++ '\t' :: r.data := by
    simp [String.data_append]
  unfold splitAtTab
  rw [hd, takeWhile_ne_tab _ _ h, dropWhile_ne_tab _ _ h]
  simp

/-- C2: when an entry is accepted and its rendered Name and InputFile contain
no tab, the record written is name, tab, input file, tab, rest (the location
field, the extension part and the newline), and splitting the record at its
first two tabs gives back the name and the input file, whatever the options
and the enabled fields are. -/
theorem C2_fixed_fields_round_trip (env : Env) (writer : tagWriter) (mio : MIO)
    (tag : tagEntryInfo) (name inputFile loc ext : String)
    (hacc : rejects env writer tag = false)
    (hname : escapeFieldValue env writer tag FIELD_NAME = some name)
    (hfile : escapeFieldValue env writer tag FIELD_INPUT_FILE = some inputFile)
    (hloc : locationField env writer tag = some loc)
    (hext : extensionPart env writer tag = some ext)
    (hn : '\t' ∉ name.data) (hf : '\t' ∉ inputFile.data) :
    (∃ n, writeCtagsEntry env writer mio tag
        = some (writer, ⟨mio.buf ++ (name ++ "\t" ++ (inputFile ++ "\t" ++ (loc ++ ext ++ "\n")))⟩, n))
    ∧ splitAtTab (name ++ "\t" ++ (inputFile ++ "\t" ++ (loc ++ ext ++ "\n")))
        = (name, inputFile ++ "\t" ++ (loc ++ ext ++ "\n"))
    ∧ splitAtTab (inputFile ++ "\t" ++ (loc ++ ext ++ "\n")) = (inputFile, loc ++ ext ++ "\n") := by
  refine ⟨?_, splitAtTab_append _ _ hn, splitAtTab_append _ _ hf⟩
  have hb : recordBody env writer tag = some (name ++ "\t" ++ inputFile ++ "\t" ++ loc ++ ext) := by
    simp [recordBody, hname, hfile, hloc, hext]
  obtain ⟨n, hw⟩ := writeCtagsEntry_record env writer mio tag _ hacc hb
  refine ⟨n, ?_⟩
  rw [hw]
  simp [String.append_assoc]

/-- C2 at the sample entry, written with the kind and the language enabled. -/
theorem C2_fixed_fields_round_trip_witness :
    (∃ n, writeCtagsEntry (sampleEnv [FIELD_KIND, FIELD_LANGUAGE] true sampleOptions "C")
          sampleWriter ⟨""⟩ sampleTag
        = some (sampleWriter, ⟨"" ++ ("main" ++ "\t" ++ ("main.c" ++ "\t"
            ++ ("/^int main (void)$/" ++ ";\"\tf\tlanguage:C" ++ "\n")))⟩, n))
    ∧ splitAtTab ("main" ++ "\t" ++ ("main.c" ++ "\t"
          ++ ("/^int main (void)$/" ++ ";\"\tf\tlanguage:C" ++ "\n")))
        = ("main", "main.c" ++ "\t" ++ ("/^int main (void)$/" ++ ";\"\tf\tlanguage:C" ++ "\n"))
    ∧ splitAtTab ("main.c" ++ "\t" ++ ("/^int main (void)$/" ++ ";\"\tf\tlanguage:C" ++ "\n"))
        = ("main.c", "/^int main (void)$/" ++ ";\"\tf\tlanguage:C" ++ "\n") :=
  C2_fixed_fields_round_trip (sampleEnv [FIELD_KIND, FIELD_LANGUAGE] true sampleOptions "C")
    sampleWriter ⟨""⟩ sampleTag "main" "main.c" "/^int main (void)$/" ";\"\tf\tlanguage:C"
    (by decide) (by decide) (by decide) (by decide) (by decide) (by decide) (by decide)

/-! ## Record shape (C3) and location field (C4) -/

theorem writesRecord_of_parts (env : Env) (writer : tagWriter) (mio : MIO)
    (tag : tagEntryInfo) (name inputFile loc ext : String)
    (hacc : rejects env writer tag = false)
    (hname : escapeFieldValue env writer tag FIELD_NAME = some name)
    (hfile : escapeFieldValue env writer tag FIELD_INPUT_FILE = some inputFile)
    (hloc : locationField env writer tag = some loc)
    (hext : extensionPart env writer tag = some ext) :
    writesRecord env writer mio tag (name ++ "\t" ++ inputFile ++ "\t" ++ loc ++ ext) := by
  have hb : recordBody env writer tag = some (name ++ "\t" ++ inputFile ++ "\t" ++ loc ++ ext) := by
    simp [recordBody, hname, hfile, hloc, hext]
  unfold writesRecord
  rw [writeCtagsEntry_accepted env writer mio tag hacc, hb]
  rfl

/-- C3: for an accepted entry the record written is rendered Name, tab,
rendered InputFile, tab, the location field, the extension part (the
extension block and the parser segments) and then exactly one newline, the
last byte of the record; when extension output is disabled the extension part
is empty, so the record is Name, tab, InputFile, tab, location, newline. -/
theorem C3_record_shape (env : Env) (writer : tagWriter) (mio : MIO)
    (tag : tagEntryInfo) (name inputFile loc ext : String)
    (hacc : rejects env writer tag = false)
    (hname : escapeFieldValue env writer tag FIELD_NAME = some name)
    (hfile : escapeFieldValue env writer tag FIELD_INPUT_FILE = some inputFile)
    (hloc : locationField env writer tag = some loc)
    (hext : extensionPart env writer tag = some ext) :
    (∃ n, writeCtagsEntry env writer mio tag
        = some (writer, ⟨mio.buf ++ (name ++ "\t" ++ inputFile ++ "\t" ++ loc ++ ext) ++ "\n"⟩, n))
    ∧ (env.includeExtensionFlags = false →
        ext = ""
        ∧ ∃ n, writeCtagsEntry env writer mio tag
            = some (writer, ⟨mio.buf ++ (name ++ "\t" ++ inputFile ++ "\t" ++ loc) ++ "\n"⟩, n)) := by
  have hb : recordBody env writer tag = some (name ++ "\t" ++ inputFile ++ "\t" ++ loc ++ ext) := by
    simp [recordBody, hname, hfile, hloc, hext]
  have h := writeCtagsEntry_record env writer mio tag _ hacc hb
  refine ⟨h, fun hoff => ?_⟩
  have he : ext = "" := by
    have h2 : extensionPart env writer tag = some "" := by simp [extensionPart, hoff]
    rw [hext] at h2
    exact Option.some.inj h2
  subst he
  exact ⟨rfl, by simpa using h⟩

/-- C3 at the sample entry, with extension output disabled. -/
theorem C3_record_shape_witness :
    (∃ n, writeCtagsEntry (sampleEnv [FIELD_KIND] false sampleOptions "C") sampleWriter
          ⟨"!_TAG\n"⟩ sampleTag
        = some (sampleWriter,
            ⟨"!_TAG\n" ++ ("main" ++ "\t" ++ "main.c" ++ "\t" ++ "/^int main (void)$/" ++ "")
              ++ "\n"⟩, n))
    ∧ ((sampleEnv [FIELD_KIND] false sampleOptions "C").includeExtensionFlags = false →
        "" = ""
        ∧ ∃ n, writeCtagsEntry (sampleEnv [FIELD_KIND] false sampleOptions "C") sampleWriter
              ⟨"!_TAG\n"⟩ sampleTag
            = some (sampleWriter,
                ⟨"!_TAG\n" ++ ("main" ++ "\t" ++ "main.c" ++ "\t" ++ "/^int main (void)$/")
                  ++ "\n"⟩, n)) :=
  C3_record_shape (sampleEnv [FIELD_KIND] false sampleOptions "C") sampleWriter ⟨"!_TAG\n"⟩
    sampleTag "main" "main.c" "/^int main (void)$/" ""
    (by decide) (by decide) (by decide) (by decide) (by decide)

/-- C4: the third field of the record of an accepted entry.  For a
line-number-anchored entry it is the rendered LineNumber text when line
directives are on and the line number in decimal otherwise, in every locate
mode; for a pattern-anchored entry in combine mode it is the adjusted line
number in decimal (the line number plus one for a backward search, minus one
for a forward search, in `unsigned long` arithmetic), a semicolon and the
rendered pattern; for a pattern-anchored entry in another mode it is the
rendered pattern alone. -/
theorem C4_location_field (env : Env) (writer : tagWriter) (mio : MIO)
    (tag : tagEntryInfo) (name inputFile ext : String)
    (hacc : rejects env writer tag = false)
    (hname : escapeFieldValue env writer tag FIELD_NAME = some name)
    (hfile : escapeFieldValue env writer tag FIELD_INPUT_FILE = some inputFile)
    (hext : extensionPart env writer tag = some ext)
    (hline : tag.lineNumber < 2 ^ 64) :
    (tag.lineNumberEntry = true → env.Option.lineDirectives = true →
      ∀ v, escapeFieldValue env writer tag FIELD_LINE_NUMBER = some v →
        writesRecord env writer mio tag (name ++ "\t" ++ inputFile ++ "\t" ++ v ++ ext))
    ∧ (tag.lineNumberEntry = true → env.Option.lineDirectives = false →
        writesRecord env writer mio tag
          (name ++ "\t" ++ inputFile ++ "\t" ++ Nat.repr tag.lineNumber ++ ext))
    ∧ (tag.lineNumberEntry = false → env.Option.locate = exCmd.EX_COMBINE →
        ∀ p, escapeFieldValue env writer tag FIELD_PATTERN = some p →
          writesRecord env writer mio tag
            (name ++ "\t" ++ inputFile ++ "\t"
              ++ (Nat.repr ((tag.lineNumber + (if env.Option.backward then 1 else 2 ^ 64 - 1))
                    % 2 ^ 64) ++ ";" ++ p) ++ ext)
          ∧ (env.Option.backward = true → tag.lineNumber + 1 < 2 ^ 64 →
              writesRecord env writer mio tag
                (name ++ "\t" ++ inputFile ++ "\t"
                  ++ (Nat.repr (tag.lineNumber + 1) ++ ";" ++ p) ++ ext))
          ∧ (env.Option.backward = false → 0 < tag.lineNumber →
              writesRecord env writer mio tag
                (name ++ "\t" ++ inputFile ++ "\t"
                  ++ (Nat.repr (tag.lineNumber - 1) ++ ";" ++ p) ++ ext)))
    ∧ (tag.lineNumberEntry = false → env.Option.locate ≠ exCmd.EX_COMBINE →
        ∀ p, escapeFieldValue env writer tag FIELD_PATTERN = some p →
          writesRecord env writer mio tag (name ++ "\t" ++ inputFile ++ "\t" ++ p ++ ext)) := by
  have key : ∀ loc, locationField env writer tag = some loc →
      writesRecord env writer mio tag (name ++ "\t" ++ inputFile ++ "\t" ++ loc ++ ext) :=
    fun loc hloc =>
      writesRecord_of_parts env writer mio tag name inputFile loc ext hacc hname hfile hloc hext
  refine ⟨?_, ?_, ?_, ?_⟩
  · intro h1 h2 v hv
    exact key v (by simp [locationField, h1, h2, hv])
  · intro h1 h2
    have hm : tag.lineNumber % 2 ^ 64 = tag.lineNumber := Nat.mod_eq_of_lt hline
    exact key _ (by unfold locationField; rw [if_pos h1, if_neg (by simp [h2]), hm])
  · intro h1 h2 p hp
    have hc : locationField env writer tag
        = some (Nat.repr ((tag.lineNumber + (if env.Option.backward then 1 else 2 ^ 64 - 1))
            % 2 ^ 64) ++ ";" ++ p) := by
      simp [locationField, h1, h2, hp]
    refine ⟨key _ hc, ?_, ?_⟩
    · intro hb hlt
      have e : (tag.lineNumber + (if env.Option.backward then 1 else 2 ^ 64 - 1)) % 2 ^ 64
          = tag.lineNumber + 1 := by
        rw [hb]; simp only [if_true]; exact Nat.mod_eq_of_lt hlt
      rw [e] at hc
      exact key _ hc
    · intro hb hpos
      have e : (tag.lineNumber + (if env.Option.backward then 1 else 2 ^ 64 - 1)) % 2 ^ 64
          = tag.lineNumber - 1 := by
        rw [hb]; simp only [Bool.false_eq_true, if_false]; omega
      rw [e] at hc
      exact key _ hc
  · intro h1 h2 p hp
    exact key p (by simp [locationField, h1, h2, hp])

/-- C4 at the sample entry in combine mode, forward search: line 12 gives `11;`
before the pattern. -/
theorem C4_location_field_witness :
    writesRecord
      (sampleEnv [] false { lineDirectives := false, locate := exCmd.EX_COMBINE, backward := false }
        "C")
      sampleWriter ⟨""⟩ sampleTag
      ("main" ++ "\t" ++ "main.c" ++ "\t" ++ (Nat.repr (12 - 1) ++ ";" ++ "/^int main (void)$/")
        ++ "") :=
  ((C4_location_field
      (sampleEnv [] false { lineDirectives := false, locate := exCmd.EX_COMBINE, backward := false }
        "C")
      sampleWriter ⟨""⟩ sampleTag "main" "main.c" ""
      (by decide) (by decide) (by decide) (by decide) (by decide)).2.2.1
    (by decide) (by decide) "/^int main (void)$/" (by decide)).2.2 (by decide) (by decide)

/-! ## Order of the extension block (C5) -/

theorem parserSegmentsFrom_none_enabled (env : Env) (writer : tagWriter) (tag : tagEntryInfo)
    (fs : List tagField) (i : Nat) (h : ∀ f ∈ fs, env.isFieldEnabled f.ftype = false) :
    parserSegmentsFrom env writer tag i fs = some [] := by
  induction fs generalizing i with
  | nil => rfl
  | cons f fs ih =>
    have hf : env.isFieldEnabled f.ftype = false := h f (by simp)
    simp only [parserSegmentsFrom, hf, Bool.false_eq_true, if_false]
    exact ih (i + 1) (fun g hg => h g (by simp [hg]))

theorem fieldSegment_absent (env : Env) (writer : tagWriter) (tag : tagEntryInfo)
    (ft : fieldType) (h : (env.isFieldEnabled ft && env.doesFieldHaveValue ft tag) = false) :
    fieldSegment env writer tag ft = some none := by
  simp [fieldSegment, h]

theorem extension_output_eq (env : Env) (writer : tagWriter) (mio : MIO) (tag : tagEntryInfo) :
    ((addExtensionFields env writer mio tag).bind fun r =>
        (addParserFields env writer r.1 tag).map fun r2 => r2.1.buf)
      = (extensionSegments env writer tag).bind fun segs =>
          (parserSegments env writer tag).map fun psegs =>
            mio.buf ++ extensionBlock segs ++ catSegments psegs := by
  rw [addExtensionFields_eq]
  cases extensionSegments env writer tag with
  | none => simp
  | some segs =>
    simp only [Option.map_some', Option.some_bind, addParserFields_eq, Option.map_map]
    rfl

/-- C5: the text appended by `addExtensionFields` followed by
`addParserFields` is the extension block of the segments Kind, LineNumber,
Language, Scope, TypeRef, FileScope, Inheritance, Access, Implementation,
Signature, Roles, Extras, XPath, EndLine, in this order, each one at most once
and only when it is present, followed by the segments of the enabled parser
fields in the order in which they were attached.  In particular, when Kind,
Scope and Signature are enabled and present and nothing else is, the text is
the marker `;"`, the kind segment, the scope segment and the signature
segment, each introduced by one tab. -/
theorem C5_extension_block_order (env : Env) (writer : tagWriter) (mio : MIO)
    (tag : tagEntryInfo) :
    (((addExtensionFields env writer mio tag).bind fun r =>
        (addParserFields env writer r.1 tag).map fun r2 => r2.1.buf)
      = (presentSegments
          [ some (kindSegment env tag),
            some (lineNumberSegment env tag),
            fieldSegment env writer tag FIELD_LANGUAGE,
            some (scopeSegment env writer tag),
            fieldSegment env writer tag FIELD_TYPE_REF,
            some (fileScopeSegment env tag),
            fieldSegment env writer tag FIELD_INHERITANCE,
            fieldSegment env writer tag FIELD_ACCESS,
            fieldSegment env writer tag FIELD_IMPLEMENTATION,
            fieldSegment env writer tag FIELD_SIGNATURE,
            fieldSegment env writer tag FIELD_ROLES,
            fieldSegment env writer tag FIELD_EXTRAS,
            fieldSegment env writer tag FIELD_XPATH,
            fieldSegment env writer tag FIELD_END_LINE ]).bind fun segs =>
          (parserSegmentsFrom env writer tag 0 tag.parserFields).map fun psegs =>
            mio.buf ++ extensionBlock segs ++ catSegments psegs)
    ∧ (∀ kind k v sg : String,
        kindString env (env.getLanguageKind tag.langType tag.kindIndex) = some kind →
        env.isFieldEnabled FIELD_SCOPE = true →
        escapeFieldValue env writer tag FIELD_SCOPE_KIND_LONG = some k →
        escapeFieldValue env writer tag FIELD_SCOPE = some v →
        env.isFieldEnabled FIELD_SIGNATURE = true →
        env.doesFieldHaveValue FIELD_SIGNATURE tag = true →
        escapeFieldValue env writer tag FIELD_SIGNATURE = some sg →
        (∀ f ∈ [FIELD_LINE_NUMBER, FIELD_LANGUAGE, FIELD_TYPE_REF, FIELD_FILE_SCOPE,
                 FIELD_INHERITANCE, FIELD_ACCESS, FIELD_IMPLEMENTATION, FIELD_ROLES,
                 FIELD_EXTRAS, FIELD_XPATH, FIELD_END_LINE],
            (env.isFieldEnabled f && env.doesFieldHaveValue f tag) = false) →
        (∀ f ∈ tag.parserFields, env.isFieldEnabled f.ftype = false) →
        ((addExtensionFields env writer mio tag).bind fun r =>
            (addParserFields env writer r.1 tag).map fun r2 => r2.1.buf)
          = some (mio.buf ++ (";\""
              ++ ("\t" ++ (if env.isFieldEnabled FIELD_KIND_KEY then
                             env.getFieldName FIELD_KIND_KEY ++ ":" else "") ++ kind)
              ++ ("\t" ++ (if env.isFieldEnabled FIELD_SCOPE_KEY then
                             env.getFieldName FIELD_SCOPE_KEY ++ ":" else "") ++ k ++ ":" ++ v)
              ++ ("\t" ++ env.getFieldName FIELD_SIGNATURE ++ ":" ++ sg)))) := by
  refine ⟨extension_output_eq env writer mio tag, ?_⟩
  intro kind k v sg hkind hscope hk hv hsig hsigv hsg hothers hparser
  rw [extension_output_eq]
  have hp : parserSegments env writer tag = some [] :=
    parserSegmentsFrom_none_enabled env writer tag tag.parserFields 0 hparser
  have hline : lineNumberSegment env tag = none := by
    have := hothers FIELD_LINE_NUMBER (by simp)
    simp [lineNumberSegment, this]
  have hfs : fileScopeSegment env tag = none := by
    have := hothers FIELD_FILE_SCOPE (by simp)
    simp [fileScopeSegment, this]
  have hsigseg : fieldSegment env writer tag FIELD_SIGNATURE
      = some (some ("\t" ++ env.getFieldName FIELD_SIGNATURE ++ ":" ++ sg)) := by
    simp [fieldSegment, hsig, hsigv, hsg]
  have hsegs : extensionSegments env writer tag
      = some [ "\t" ++ (if env.isFieldEnabled FIELD_KIND_KEY then
                          env.getFieldName FIELD_KIND_KEY ++ ":" else "") ++ kind,
               "\t" ++ (if env.isFieldEnabled FIELD_SCOPE_KEY then
                          env.getFieldName FIELD_SCOPE_KEY ++ ":" else "") ++ k ++ ":" ++ v,
               "\t" ++ env.getFieldName FIELD_SIGNATURE ++ ":" ++ sg ] := by
    simp only [extensionSegments, segmentsAfterKind, hline, hfs, hsigseg,
      fieldSegment_absent env writer tag FIELD_LANGUAGE (hothers _ (by simp)),
      fieldSegment_absent env writer tag FIELD_TYPE_REF (hothers _ (by simp)),
      fieldSegment_absent env writer tag FIELD_INHERITANCE (hothers _ (by simp)),
      fieldSegment_absent env writer tag FIELD_ACCESS (hothers _ (by simp)),
      fieldSegment_absent env writer tag FIELD_IMPLEMENTATION (hothers _ (by simp)),
      fieldSegment_absent env writer tag FIELD_ROLES (hothers _ (by simp)),
      fieldSegment_absent env writer tag FIELD_EXTRAS (hothers _ (by simp)),
      fieldSegment_absent env writer tag FIELD_XPATH (hothers _ (by simp)),
      fieldSegment_absent env writer tag FIELD_END_LINE (hothers _ (by simp))]
    simp [presentSegments, kindSegment, hkind, scopeSegment, hscope, hk, hv]
  rw [hsegs, hp]
  simp [extensionBlock, catSegments, String.append_assoc]

/-- C5 at the sample entry with Kind, Scope and Signature enabled: the block
is the marker, the kind, the scope and the signature. -/
theorem C5_extension_block_order_witness :
    ((addExtensionFields (sampleEnv [FIELD_KIND, FIELD_SCOPE, FIELD_SIGNATURE] true sampleOptions "C")
          sampleWriter ⟨"main\tmain.c\t12"⟩ sampleTag).bind fun r =>
        (addParserFields (sampleEnv [FIELD_KIND, FIELD_SCOPE, FIELD_SIGNATURE] true sampleOptions "C")
          sampleWriter r.1 sampleTag).map fun r2 => r2.1.buf)
      = some "main\tmain.c\t12;\"\tf\tstruct:S\tsignature:(void)" :=
  (C5_extension_block_order
      (sampleEnv [FIELD_KIND, FIELD_SCOPE, FIELD_SIGNATURE] true sampleOptions "C")
      sampleWriter ⟨"main\tmain.c\t12"⟩ sampleTag).2 "f" "struct" "S" "(void)"
    (by decide) (by decide) (by decide) (by decide) (by decide) (by decide) (by decide)
    (by decide) (by decide)

/-! ## The marker before the parser fields (C6) -/

/-- C6, the code at the failing input: extension output is on, no built-in
extension field is enabled and one parser field is; the parser segment is
written right after the location field, and the record has no `;"` marker. -/
theorem C6_parser_field_without_marker :
    writeCtagsEntry (sampleEnv [FIELD_PARSER 0] true sampleOptions "C") sampleWriter ⟨""⟩
        parserFieldTag
      = some (sampleWriter, ⟨"main\tmain.c\t/^int main (void)$/\tproperties:static\n"⟩, 50) := by
  decide

/-! ## The kind segment (C7, C8) -/

theorem extensionSegments_eq_kind (env : Env) (writer : tagWriter) (tag : tagEntryInfo)
    (rest : List String)
    (hrest : presentSegments (segmentsAfterKind env writer tag) = some rest) :
    extensionSegments env writer tag = some ((kindSegment env tag).toList ++ rest) := by
  show (some (kindSegment env tag)).bind (fun seg =>
      (presentSegments (segmentsAfterKind env writer tag)).map fun segs => seg.toList ++ segs) = _
  rw [hrest]
  rfl

theorem addExtensionFields_kind (env : Env) (writer : tagWriter) (mio : MIO)
    (tag : tagEntryInfo) (rest : List String)
    (hrest : presentSegments (segmentsAfterKind env writer tag) = some rest) :
    addExtensionFields env writer mio tag
      = some (⟨mio.buf ++ extensionBlock ((kindSegment env tag).toList ++ rest)⟩,
          (extensionBlock ((kindSegment env tag).toList ++ rest)).length) := by
  rw [addExtensionFields_eq, extensionSegments_eq_kind env writer tag rest hrest]
  rfl

/-- C7: the kind string written by `addExtensionFields`.  It is the long name
when the long name exists and KindLong is enabled, or Kind is enabled and the
kind has no letter; otherwise it is the one-letter form when the letter exists
and Kind is enabled, or KindLong is enabled and the kind has no long name;
otherwise no kind segment is written.  The segments that follow (`rest`) are
the same in the three cases.  When both fields are enabled and the kind has
both forms, the long name is written. -/
theorem C7_kind_tie_break (env : Env) (writer : tagWriter) (mio : MIO) (tag : tagEntryInfo)
    (rest : List String)
    (hrest : presentSegments (segmentsAfterKind env writer tag) = some rest) :
    let kdef := env.getLanguageKind tag.langType tag.kindIndex
    let key := if env.isFieldEnabled FIELD_KIND_KEY then env.getFieldName FIELD_KIND_KEY ++ ":"
               else ""
    let longCase := kdef.name ≠ none ∧ (env.isFieldEnabled FIELD_KIND_LONG = true
        ∨ (env.isFieldEnabled FIELD_KIND = true ∧ kdef.letter = KIND_NULL))
    let letterCase := kdef.letter ≠ KIND_NULL ∧ (env.isFieldEnabled FIELD_KIND = true
        ∨ (env.isFieldEnabled FIELD_KIND_LONG = true ∧ kdef.name = none))
    (longCase → ∀ N, kdef.name = some N →
      addExtensionFields env writer mio tag
        = some (⟨mio.buf ++ extensionBlock (("\t" ++ key ++ N) :: rest)⟩,
            (extensionBlock (("\t" ++ key ++ N) :: rest)).length))
    ∧ (¬ longCase → letterCase →
      addExtensionFields env writer mio tag
        = some (⟨mio.buf ++ extensionBlock (("\t" ++ key ++ String.singleton kdef.letter) :: rest)⟩,
            (extensionBlock (("\t" ++ key ++ String.singleton kdef.letter) :: rest)).length))
    ∧ (¬ longCase → ¬ letterCase →
      addExtensionFields env writer mio tag
        = some (⟨mio.buf ++ extensionBlock rest⟩, (extensionBlock rest).length))
    ∧ (env.isFieldEnabled FIELD_KIND = true → env.isFieldEnabled FIELD_KIND_LONG = true →
      kdef.letter ≠ KIND_NULL → ∀ N, kdef.name = some N →
      addExtensionFields env writer mio tag
        = some (⟨mio.buf ++ extensionBlock (("\t" ++ key ++ N) :: rest)⟩,
            (extensionBlock (("\t" ++ key ++ N) :: rest)).length)) := by
  intro kdef key longCase letterCase
  have hlong : longCase → ∀ N, kdef.name = some N →
      kindSegment env tag = some ("\t" ++ key ++ N) := by
    intro hc N hN
    have hc2 : env.isFieldEnabled FIELD_KIND_LONG = true
        ∨ (env.isFieldEnabled FIELD_KIND = true ∧ kdef.letter = KIND_NULL) := hc.2
    have hks : kindString env kdef = some N := by
      unfold kindString
      rcases hc2 with h | ⟨h1, h2⟩
      · simp [hN, h]
      · simp [hN, h1, h2]
    simp only [kindSegment]
    rw [show kindString env (env.getLanguageKind tag.langType tag.kindIndex) = some N from hks]
    rfl
  refine ⟨?_, ?_, ?_, ?_⟩
  · intro hc N hN
    rw [addExtensionFields_kind env writer mio tag rest hrest, hlong hc N hN]
    rfl
  · intro hnl hl
    have hks : kindString env kdef = some (String.singleton kdef.letter) := by
      have h2 : env.isFieldEnabled FIELD_KIND = true
          ∨ (env.isFieldEnabled FIELD_KIND_LONG = true ∧ kdef.name = none) := hl.2
      have h1 : kdef.letter ≠ KIND_NULL := hl.1
      unfold kindString
      rw [if_neg, if_pos]
      · rcases h2 with h | ⟨h, h'⟩
        · simp [h1, h]
        · simp [h1, h, h']
      · intro hcond
        apply hnl
        simp only [Bool.and_eq_true, Bool.or_eq_true, decide_eq_true_eq] at hcond
        exact ⟨by intro e; rw [e] at hcond; simp at hcond, hcond.2⟩
    rw [addExtensionFields_kind env writer mio tag rest hrest]
    simp only [kindSegment]
    rw [show kindString env (env.getLanguageKind tag.langType tag.kindIndex)
        = some (String.singleton kdef.letter) from hks]
    rfl
  · intro hnl hnt
    have hks : kindString env kdef = none := by
      unfold kindString
      rw [if_neg, if_neg]
      · intro hcond
        apply hnt
        simp only [Bool.and_eq_true, Bool.or_eq_true, decide_eq_true_eq, ne_eq,
          decide_not, Bool.not_eq_true', decide_eq_false_iff_not, Option.isNone_iff_eq_none]
          at hcond
        exact hcond
      · intro hcond
        apply hnl
        simp only [Bool.and_eq_true, Bool.or_eq_true, decide_eq_true_eq] at hcond
        exact ⟨by intro e; rw [e] at hcond; simp at hcond, hcond.2⟩
    rw [addExtensionFields_kind env writer mio tag rest hrest]
    simp only [kindSegment]
    rw [show kindString env (env.getLanguageKind tag.langType tag.kindIndex) = none from hks]
    rfl
  · intro _ hkl _ N hN
    have hc : longCase := ⟨by rw [hN]; simp, Or.inl hkl⟩
    rw [addExtensionFields_kind env writer mio tag rest hrest, hlong hc N hN]
    rfl

/-- C7 at the sample kind `f`, `function` with Kind and KindLong both enabled:
the long name is written. -/
theorem C7_kind_tie_break_witness :
    addExtensionFields (sampleEnv [FIELD_KIND, FIELD_KIND_LONG] true sampleOptions "C")
        sampleWriter ⟨""⟩ sampleTag
      = some (⟨"" ++ extensionBlock (("\t" ++ "" ++ "function") :: [])⟩,
          (extensionBlock (("\t" ++ "" ++ "function") :: [])).length) :=
  (C7_kind_tie_break (sampleEnv [FIELD_KIND, FIELD_KIND_LONG] true sampleOptions "C")
      sampleWriter ⟨""⟩ sampleTag [] (by decide)).2.2.2
    (by decide) (by decide) (by decide) "function" (by decide)

/-- C8, as stated, fails: with only KindLong enabled (and the kind key flag
off) the record of the sample entry, of kind `f`, `function`, continues after
the location field with `;"`, tab, `function`, without `kind:`. -/
theorem C8_counterexample :
    (sampleEnv [FIELD_KIND_LONG] true sampleOptions "C").isFieldEnabled FIELD_KIND_LONG = true
    ∧ (sampleEnv [FIELD_KIND_LONG] true sampleOptions "C").isFieldEnabled FIELD_KIND = false
    ∧ (sampleEnv [FIELD_KIND_LONG] true sampleOptions "C").isFieldEnabled FIELD_KIND_KEY = false
    ∧ (sampleEnv [FIELD_KIND_LONG] true sampleOptions "C").getLanguageKind
          sampleTag.langType sampleTag.kindIndex = { letter := 'f', name := some "function" }
    ∧ writeCtagsEntry (sampleEnv [FIELD_KIND_LONG] true sampleOptions "C") sampleWriter ⟨""⟩
          sampleTag
        = some (sampleWriter, ⟨"main\tmain.c\t/^int main (void)$/;\"\tfunction\n"⟩, 43)
    ∧ ¬ writesRecord (sampleEnv [FIELD_KIND_LONG] true sampleOptions "C") sampleWriter ⟨""⟩
          sampleTag "main\tmain.c\t/^int main (void)$/;\"\tkind:function" := by
  decide

/-- C8, amended: for an accepted entry whose kind has the letter `L` and the
long name `N`, with extension output enabled.  With only KindLong enabled the
record continues after the location field with `;"`, a tab and `N`; with only
Kind enabled it continues with `;"`, a tab and `L`; in both cases the kind key
and a colon stand between the tab and the kind string exactly when the kind
key flag is enabled.  With neither enabled no kind segment is written. -/
theorem C8_kind_segment_text (env : Env) (writer : tagWriter) (mio : MIO) (tag : tagEntryInfo)
    (name inputFile loc : String) (rest psegs : List String) (L : Char) (N : String)
    (hacc : rejects env writer tag = false)
    (hname : escapeFieldValue env writer tag FIELD_NAME = some name)
    (hfile : escapeFieldValue env writer tag FIELD_INPUT_FILE = some inputFile)
    (hloc : locationField env writer tag = some loc)
    (hon : env.includeExtensionFlags = true)
    (hkind : env.getLanguageKind tag.langType tag.kindIndex = { letter := L, name := some N })
    (hL : L ≠ KIND_NULL)
    (hrest : presentSegments (segmentsAfterKind env writer tag) = some rest)
    (hpsegs : parserSegments env writer tag = some psegs) :
    let key := if env.isFieldEnabled FIELD_KIND_KEY then env.getFieldName FIELD_KIND_KEY ++ ":"
               else ""
    (env.isFieldEnabled FIELD_KIND_LONG = true → env.isFieldEnabled FIELD_KIND = false →
      writesRecord env writer mio tag
        (name ++ "\t" ++ inputFile ++ "\t" ++ loc
          ++ (";\"" ++ ("\t" ++ key ++ N) ++ catSegments rest ++ catSegments psegs)))
    ∧ (env.isFieldEnabled FIELD_KIND = true → env.isFieldEnabled FIELD_KIND_LONG = false →
      writesRecord env writer mio tag
        (name ++ "\t" ++ inputFile ++ "\t" ++ loc
          ++ (";\"" ++ ("\t" ++ key ++ String.singleton L) ++ catSegments rest
              ++ catSegments psegs)))
    ∧ (env.isFieldEnabled FIELD_KIND = false → env.isFieldEnabled FIELD_KIND_LONG = false →
      writesRecord env writer mio tag
        (name ++ "\t" ++ inputFile ++ "\t" ++ loc
          ++ (extensionBlock rest ++ catSegments psegs))) := by
  intro key
  have hext : ∀ seg : Option String, kindSegment env tag = seg →
      extensionPart env writer tag
        = some (extensionBlock (seg.toList ++ rest) ++ catSegments psegs) := by
    intro seg hseg
    simp only [extensionPart, hon, if_true,
      extensionSegments_eq_kind env writer tag rest hrest, hpsegs, hseg]
    rfl
  have hblock : ∀ s : String, extensionBlock ((some s).toList ++ rest) ++ catSegments psegs
      = ";\"" ++ s ++ catSegments rest ++ catSegments psegs := by
    intro s
    simp [extensionBlock, catSegments, String.append_assoc]
  refine ⟨?_, ?_, ?_⟩
  · intro hkl hk
    have hseg : kindSegment env tag = some ("\t" ++ key ++ N) := by
      simp only [kindSegment, hkind, kindString]
      simp [hkl, hk, key]
    have h := writesRecord_of_parts env writer mio tag name inputFile loc _ hacc hname hfile
      hloc (hext _ hseg)
    rw [hblock] at h
    exact h
  · intro hk hkl
    have hseg : kindSegment env tag = some ("\t" ++ key ++ String.singleton L) := by
      simp only [kindSegment, hkind, kindString]
      simp [hkl, hk, hL, key]
    have h := writesRecord_of_parts env writer mio tag name inputFile loc _ hacc hname hfile
      hloc (hext _ hseg)
    rw [hblock] at h
    exact h
  · intro hk hkl
    have hseg : kindSegment env tag = none := by
      simp only [kindSegment, hkind, kindString]
      simp [hkl, hk]
    exact writesRecord_of_parts env writer mio tag name inputFile loc _ hacc hname hfile
      hloc (hext _ hseg)

/-- The amended C8 at the sample entry with only KindLong enabled. -/
theorem C8_kind_segment_text_witness :
    writesRecord (sampleEnv [FIELD_KIND_LONG] true sampleOptions "C") sampleWriter ⟨""⟩ sampleTag
      ("main" ++ "\t" ++ "main.c" ++ "\t" ++ "/^int main (void)$/"
        ++ (";\"" ++ ("\t" ++ "" ++ "function") ++ catSegments [] ++ catSegments [])) :=
  (C8_kind_segment_text (sampleEnv [FIELD_KIND_LONG] true sampleOptions "C") sampleWriter ⟨""⟩
      sampleTag "main" "main.c" "/^int main (void)$/" [] [] 'f' "function"
      (by decide) (by decide) (by decide) (by decide) (by decide) (by decide) (by decide)
      (by decide) (by decide)).1 (by decide) (by decide)

/-! ## The file scope segment (C9) -/

theorem presentSegments_append (a b : List (Option (Option String))) :
    presentSegments (a ++ b)
      = (presentSegments a).bind fun x => (presentSegments b).map fun y => x ++ y := by
  induction a with
  | nil => simp [presentSegments]
  | cons x rest ih =>
    cases x with
    | none => simp [presentSegments]
    | some seg =>
      rw [List.cons_append]
      simp only [presentSegments, Option.some_bind]
      rw [ih]
      cases presentSegments rest with
      | none => simp
      | some xs =>
        cases presentSegments b with
        | none => simp
        | some ys => simp

/-- C9, as stated, fails: with only FileScope enabled, the segment written for
the sample entry is a tab, the key `file` and a colon; the record does not end
with the key alone. -/
theorem C9_counterexample :
    (sampleEnv [FIELD_FILE_SCOPE] true sampleOptions "C").isFieldEnabled FIELD_FILE_SCOPE = true
    ∧ (sampleEnv [FIELD_FILE_SCOPE] true sampleOptions "C").doesFieldHaveValue FIELD_FILE_SCOPE
          sampleTag = true
    ∧ (sampleEnv [FIELD_FILE_SCOPE] true sampleOptions "C").getFieldName FIELD_FILE_SCOPE = "file"
    ∧ writeCtagsEntry (sampleEnv [FIELD_FILE_SCOPE] true sampleOptions "C") sampleWriter ⟨""⟩
          sampleTag
        = some (sampleWriter, ⟨"main\tmain.c\t/^int main (void)$/;\"\tfile:\n"⟩, 40)
    ∧ ¬ writesRecord (sampleEnv [FIELD_FILE_SCOPE] true sampleOptions "C") sampleWriter ⟨""⟩
          sampleTag "main\tmain.c\t/^int main (void)$/;\"\tfile" := by
  decide

/-- C9, amended: for an accepted entry, written with extension output
enabled, for which the FileScope field is enabled and has a value, the segment
written for it is a tab, the key of the field and a colon, with no value:
nothing stands between the colon and the next segment or the newline.  Here
`pre` are the segments written before it (Kind, LineNumber, Language, Scope,
TypeRef) and `post` the ones written after it. -/
theorem C9_file_scope_segment (env : Env) (writer : tagWriter) (mio : MIO) (tag : tagEntryInfo)
    (name inputFile loc : String) (pre post psegs : List String)
    (hacc : rejects env writer tag = false)
    (hname : escapeFieldValue env writer tag FIELD_NAME = some name)
    (hfile : escapeFieldValue env writer tag FIELD_INPUT_FILE = some inputFile)
    (hloc : locationField env writer tag = some loc)
    (hon : env.includeExtensionFlags = true)
    (hen : env.isFieldEnabled FIELD_FILE_SCOPE = true)
    (hval : env.doesFieldHaveValue FIELD_FILE_SCOPE tag = true)
    (hpre : presentSegments
        [ some (kindSegment env tag),
          some (lineNumberSegment env tag),
          fieldSegment env writer tag FIELD_LANGUAGE,
          some (scopeSegment env writer tag),
          fieldSegment env writer tag FIELD_TYPE_REF ] = some pre)
    (hpost : presentSegments
        [ fieldSegment env writer tag FIELD_INHERITANCE,
          fieldSegment env writer tag FIELD_ACCESS,
          fieldSegment env writer tag FIELD_IMPLEMENTATION,
          fieldSegment env writer tag FIELD_SIGNATURE,
          fieldSegment env writer tag FIELD_ROLES,
          fieldSegment env writer tag FIELD_EXTRAS,
          fieldSegment env writer tag FIELD_XPATH,
          fieldSegment env writer tag FIELD_END_LINE ] = some post)
    (hpsegs : parserSegments env writer tag = some psegs) :
    writesRecord env writer mio tag
      (name ++ "\t" ++ inputFile ++ "\t" ++ loc
        ++ (";\"" ++ catSegments pre ++ ("\t" ++ env.getFieldName FIELD_FILE_SCOPE ++ ":")
            ++ catSegments post ++ catSegments psegs)) := by
  have hfs : fileScopeSegment env tag = some ("\t" ++ env.getFieldName FIELD_FILE_SCOPE ++ ":") := by
    simp [fileScopeSegment, hen, hval]
  have hsegs : extensionSegments env writer tag
      = some (pre ++ (["\t" ++ env.getFieldName FIELD_FILE_SCOPE ++ ":"] ++ post)) := by
    show presentSegments
      ([ some (kindSegment env tag),
          some (lineNumberSegment env tag),
          fieldSegment env writer tag FIELD_LANGUAGE,
          some (scopeSegment env writer tag),
          fieldSegment env writer tag FIELD_TYPE_REF ]
        ++ ([some (fileScopeSegment env tag)]
        ++ [ fieldSegment env writer tag FIELD_INHERITANCE,
          fieldSegment env writer tag FIELD_ACCESS,
          fieldSegment env writer tag FIELD_IMPLEMENTATION,
          fieldSegment env writer tag FIELD_SIGNATURE,
          fieldSegment env writer tag FIELD_ROLES,
          fieldSegment env writer tag FIELD_EXTRAS,
          fieldSegment env writer tag FIELD_XPATH,
          fieldSegment env writer tag FIELD_END_LINE ])) = _
    rw [presentSegments_append, presentSegments_append, hpre, hpost, hfs]
    rfl
  have hext : extensionPart env writer tag
      = some (extensionBlock (pre ++ (["\t" ++ env.getFieldName FIELD_FILE_SCOPE ++ ":"] ++ post))
          ++ catSegments psegs) := by
    simp only [extensionPart, hon, if_true, hsegs, hpsegs]
    rfl
  have h := writesRecord_of_parts env writer mio tag name inputFile loc _ hacc hname hfile
    hloc hext
  have hblock : extensionBlock (pre ++ (["\t" ++ env.getFieldName FIELD_FILE_SCOPE ++ ":"] ++ post))
      = ";\"" ++ catSegments pre ++ ("\t" ++ env.getFieldName FIELD_FILE_SCOPE ++ ":")
          ++ catSegments post := by
    simp [extensionBlock, catSegments_append, catSegments, String.append_assoc]
  rw [hblock] at h
  exact h

/-- The amended C9 at the sample entry with Kind, FileScope and Signature
enabled. -/
theorem C9_file_scope_segment_witness :
    writesRecord (sampleEnv [FIELD_KIND, FIELD_FILE_SCOPE, FIELD_SIGNATURE] true sampleOptions "C")
      sampleWriter ⟨""⟩ sampleTag
      ("main" ++ "\t" ++ "main.c" ++ "\t" ++ "/^int main (void)$/"
        ++ (";\"" ++ catSegments ["\tf"] ++ ("\t" ++ "file" ++ ":")
            ++ catSegments ["\tsignature:(void)"] ++ catSegments [])) :=
  C9_file_scope_segment
    (sampleEnv [FIELD_KIND, FIELD_FILE_SCOPE, FIELD_SIGNATURE] true sampleOptions "C")
    sampleWriter ⟨""⟩ sampleTag "main" "main.c" "/^int main (void)$/"
    ["\tf"] ["\tsignature:(void)"] []
    (by decide) (by decide) (by decide) (by decide) (by decide) (by decide) (by decide)
    (by decide) (by decide) (by decide)

/-! ## Pseudo-tags (C10) -/

/-- C10: `writeCtagsPtagEntry` appends the prefix, the name, the separator and
the parser name, a tab, the file name, a tab, the pattern and a newline when a
parser name is given, and the prefix, the name, a tab, the file name, a tab
and the pattern between slashes and a newline when it is not; an absent file
name or pattern is written as the empty string, the strings are written as
they are, and the value returned is the number of bytes written.  For the
name `TAG_FILE_FORMAT`, no file name, the pattern `2` and no parser name the
record is the prefix followed by `TAG_FILE_FORMAT`, two tabs, `/2/` and a
newline. -/
theorem C10_pseudo_tag_shape (env : Env) (mio : MIO) (desc : ptagDesc)
    (fileName pattern : Option String) :
    (∀ parserName : String,
      writeCtagsPtagEntry env mio desc fileName pattern (some parserName)
        = (⟨mio.buf ++ (env.PSEUDO_TAG_PREFIX ++ desc.name ++ env.PSEUDO_TAG_SEPARATOR
              ++ parserName ++ "\t" ++ fileName.getD "" ++ "\t" ++ pattern.getD "" ++ "\n")⟩,
            (env.PSEUDO_TAG_PREFIX ++ desc.name ++ env.PSEUDO_TAG_SEPARATOR
              ++ parserName ++ "\t" ++ fileName.getD "" ++ "\t" ++ pattern.getD "" ++ "\n").length))
    ∧ writeCtagsPtagEntry env mio desc fileName pattern none
        = (⟨mio.buf ++ (env.PSEUDO_TAG_PREFIX ++ desc.name ++ "\t" ++ fileName.getD ""
              ++ "\t/" ++ pattern.getD "" ++ "/\n")⟩,
            (env.PSEUDO_TAG_PREFIX ++ desc.name ++ "\t" ++ fileName.getD ""
              ++ "\t/" ++ pattern.getD "" ++ "/\n").length)
    ∧ writeCtagsPtagEntry env mio { name := "TAG_FILE_FORMAT" } none (some "2") none
        = (⟨mio.buf ++ (env.PSEUDO_TAG_PREFIX ++ "TAG_FILE_FORMAT\t\t/2/\n")⟩,
            (env.PSEUDO_TAG_PREFIX ++ "TAG_FILE_FORMAT\t\t/2/\n").length) := by
  refine ⟨fun parserName => rfl, rfl, ?_⟩
  have e : env.PSEUDO_TAG_PREFIX ++ "TAG_FILE_FORMAT" ++ "\t" ++ (none : Option String).getD ""
      ++ "\t/" ++ (some "2" : Option String).getD "" ++ "/\n"
      = env.PSEUDO_TAG_PREFIX ++ "TAG_FILE_FORMAT\t\t/2/\n" := by
    simp only [String.append_assoc]
    rfl
  unfold writeCtagsPtagEntry mio_printf
  simp only [e]

/-! ## The renderer used by each writer (C11, C12) -/

theorem escapeFieldValueFull_e_ctags (env : Env) (writer : tagWriter) (tag : tagEntryInfo)
    (ft : fieldType) (index : Int) (h : writer.type = writerType.WRITER_E_CTAGS) :
    escapeFieldValueFull env writer tag ft index
      = if env.doesFieldHaveRenderer ft true then env.renderFieldNoEscaping ft tag index
        else env.renderField ft tag index := by
  simp [escapeFieldValueFull, h]

theorem escapeFieldValueFull_other (env : Env) (writer : tagWriter) (tag : tagEntryInfo)
    (ft : fieldType) (index : Int) (h : writer.type ≠ writerType.WRITER_E_CTAGS) :
    escapeFieldValueFull env writer tag ft index = env.renderField ft tag index := by
  simp [escapeFieldValueFull, h]

theorem recordBody_length (env : Env) (writer : tagWriter) (tag : tagEntryInfo) (body : String)
    (h : recordBody env writer tag = some body) : 2 ≤ body.length := by
  unfold recordBody at h
  cases hn : escapeFieldValue env writer tag FIELD_NAME with
  | none => simp [hn] at h
  | some name =>
    cases hf : escapeFieldValue env writer tag FIELD_INPUT_FILE with
    | none => simp [hn, hf] at h
    | some inputFile =>
      cases hl : locationField env writer tag with
      | none => simp [hn, hf, hl] at h
      | some loc =>
        cases he : extensionPart env writer tag with
        | none => simp [hn, hf, hl, he] at h
        | some ext =>
          simp only [hn, hf, hl, he, Option.some_bind, Option.map_some', Option.some.injEq] at h
          rw [← h]
          simp only [String.length_append]
          have : "\t".length = 1 := rfl
          omega

/-- C11, as stated, fails: the writer of type `WRITER_E_CTAGS` is
`eCtagsWriter`, whose private data is the rejection state that its
`preWriteEntry` returns; an entry whose name has a tab, Name declaring a
renderer without escaping, is rejected: nothing is written and the flag is
set. -/
theorem C11_counterexample :
    sampleWriter.type = writerType.WRITER_E_CTAGS
    ∧ eCtagsWriter.preWriteEntry.map (fun f => f sampleWriter ⟨""⟩) = sampleWriter.priv
    ∧ (escapingEnv [] false sampleOptions).doesFieldHaveRenderer FIELD_NAME true = true
    ∧ (escapingEnv [] false sampleOptions).renderFieldNoEscaping FIELD_NAME
          { sampleTag with name := "ma\tin" } NO_PARSER_FIELD = some "ma\tin"
    ∧ writeCtagsEntry (escapingEnv [] false sampleOptions) sampleWriter ⟨""⟩
          { sampleTag with name := "ma\tin" }
        = some ({ sampleWriter with priv := some { rejectionInThisInput := true } }, ⟨""⟩, 0) := by
  decide

/-- C11, amended: the writer selected by the type `WRITER_E_CTAGS` writes the
value of a field with the renderer without escaping when the field declares
one, and with the escaped renderer otherwise.  It is the writer that carries
the rejection state: an entry in which `hasTagEntryTabChar` finds a tab is
rejected, nothing is written and the flag is set.  An entry that is not
rejected (every entry, when the writer has no private data) is written as a
non-empty record, the private data of the writer is left as it was, and a
Name that declares a renderer without escaping stands in the record as that
renderer gives it. -/
theorem C11_e_ctags_writer (env : Env) (writer : tagWriter) (mio : MIO) (tag : tagEntryInfo)
    (htype : writer.type = writerType.WRITER_E_CTAGS) :
    (∀ ft index, escapeFieldValueFull env writer tag ft index
        = if env.doesFieldHaveRenderer ft true then env.renderFieldNoEscaping ft tag index
          else env.renderField ft tag index)
    ∧ (∀ rej, writer.priv = some rej → hasTagEntryTabChar env tag = true →
        writeCtagsEntry env writer mio tag
          = some ({ writer with priv := some { rejectionInThisInput := true } }, mio, 0))
    ∧ (writer.priv = none → rejects env writer tag = false)
    ∧ (rejects env writer tag = false → ∀ body, recordBody env writer tag = some body →
        writesRecord env writer mio tag body ∧ 3 ≤ (body ++ "\n").length)
    ∧ (rejects env writer tag = false → env.doesFieldHaveRenderer FIELD_NAME true = true →
        ∀ name inputFile loc ext,
          env.renderFieldNoEscaping FIELD_NAME tag NO_PARSER_FIELD = some name →
          escapeFieldValue env writer tag FIELD_INPUT_FILE = some inputFile →
          locationField env writer tag = some loc →
          extensionPart env writer tag = some ext →
          writesRecord env writer mio tag (name ++ "\t" ++ inputFile ++ "\t" ++ loc ++ ext)) := by
  refine ⟨fun ft index => escapeFieldValueFull_e_ctags env writer tag ft index htype, ?_, ?_, ?_, ?_⟩
  · intro rej hpriv htab
    apply writeCtagsEntry_rejected
    simp [rejects, hpriv, htab]
  · intro hpriv
    simp [rejects, hpriv]
  · intro hacc body hbody
    refine ⟨?_, ?_⟩
    · unfold writesRecord
      rw [writeCtagsEntry_accepted env writer mio tag hacc, hbody]
      rfl
    · have := recordBody_length env writer tag body hbody
      simp only [String.length_append]
      have h1 : "\n".length = 1 := rfl
      omega
  · intro hacc hdecl name inputFile loc ext hname hfile hloc hext
    have hn : escapeFieldValue env writer tag FIELD_NAME = some name := by
      unfold escapeFieldValue
      rw [escapeFieldValueFull_e_ctags env writer tag _ _ htype, hdecl]
      simpa using hname
    exact writesRecord_of_parts env writer mio tag name inputFile loc ext hacc hn hfile hloc hext

/-- The amended C11 at `eCtagsWriter` and an entry whose name has a backslash:
the name is written as the renderer without escaping gives it. -/
theorem C11_e_ctags_writer_witness :
    writesRecord (escapingEnv [] false sampleOptions) sampleWriter ⟨""⟩
      { sampleTag with name := "a\\b" }
      ("a\\b" ++ "\t" ++ "main.c" ++ "\t" ++ "/^int main (void)$/" ++ "") :=
  (C11_e_ctags_writer (escapingEnv [] false sampleOptions) sampleWriter ⟨""⟩
      { sampleTag with name := "a\\b" } (by decide)).2.2.2.2
    (by decide) (by decide) "a\\b" "main.c" "/^int main (void)$/" ""
    (by decide) (by decide) (by decide) (by decide)

/-- C12, as stated, fails: `eCtagsWriter`, the writer with rejection state,
accepts the entry named `a\b` and writes the name as the renderer without
escaping gives it, not as `renderField` gives it (with the backslash
doubled). -/
theorem C12_counterexample :
    sampleWriter.priv = some { rejectionInThisInput := false }
    ∧ sampleWriter.type = writerType.WRITER_E_CTAGS
    ∧ (escapingEnv [] false sampleOptions).renderField FIELD_NAME
          { sampleTag with name := "a\\b" } NO_PARSER_FIELD = some "a\\\\b"
    ∧ (escapingEnv [] false sampleOptions).renderFieldNoEscaping FIELD_NAME
          { sampleTag with name := "a\\b" } NO_PARSER_FIELD = some "a\\b"
    ∧ writeCtagsEntry (escapingEnv [] false sampleOptions) sampleWriter ⟨""⟩
          { sampleTag with name := "a\\b" }
        = some (sampleWriter, ⟨"a\\b\tmain.c\t/^int main (void)$/\n"⟩, 31)
    ∧ ¬ writesRecord (escapingEnv [] false sampleOptions) sampleWriter ⟨""⟩
          { sampleTag with name := "a\\b" } "a\\\\b\tmain.c\t/^int main (void)$/" := by
  decide

/-- C12, amended: in an accepted record, the writer with rejection state,
`eCtagsWriter`, of type `WRITER_E_CTAGS`, writes each field value with the
renderer without escaping (`renderFieldNoEscaping`) when the field declares
one and with the escaped renderer (`renderField`) only when it declares none;
a writer of another type writes every value with `renderField`.  So for the
writer of type `WRITER_E_CTAGS` the Name, the InputFile and the Pattern of an
accepted pattern-anchored record are the renderings chosen in this way. -/
theorem C12_renderer_of_each_writer (env : Env) (writer : tagWriter) (mio : MIO)
    (tag : tagEntryInfo) :
    (writer.type = writerType.WRITER_E_CTAGS → ∀ ft index,
      escapeFieldValueFull env writer tag ft index
        = if env.doesFieldHaveRenderer ft true then env.renderFieldNoEscaping ft tag index
          else env.renderField ft tag index)
    ∧ (writer.type ≠ writerType.WRITER_E_CTAGS → ∀ ft index,
      escapeFieldValueFull env writer tag ft index = env.renderField ft tag index)
    ∧ (writer.type = writerType.WRITER_E_CTAGS → rejects env writer tag = false →
        tag.lineNumberEntry = false → env.Option.locate ≠ exCmd.EX_COMBINE →
        ∀ name inputFile pattern ext,
          (if env.doesFieldHaveRenderer FIELD_NAME true then
              env.renderFieldNoEscaping FIELD_NAME tag NO_PARSER_FIELD
            else env.renderField FIELD_NAME tag NO_PARSER_FIELD) = some name →
          (if env.doesFieldHaveRenderer FIELD_INPUT_FILE true then
              env.renderFieldNoEscaping FIELD_INPUT_FILE tag NO_PARSER_FIELD
            else env.renderField FIELD_INPUT_FILE tag NO_PARSER_FIELD) = some inputFile →
          (if env.doesFieldHaveRenderer FIELD_PATTERN true then
              env.renderFieldNoEscaping FIELD_PATTERN tag NO_PARSER_FIELD
            else env.renderField FIELD_PATTERN tag NO_PARSER_FIELD) = some pattern →
          extensionPart env writer tag = some ext →
          writesRecord env writer mio tag
            (name ++ "\t" ++ inputFile ++ "\t" ++ pattern ++ ext)) := by
  refine ⟨fun h ft index => escapeFieldValueFull_e_ctags env writer tag ft index h,
    fun h ft index => escapeFieldValueFull_other env writer tag ft index h, ?_⟩
  intro htype hacc hline hloc name inputFile pattern ext hname hfile hpat hext
  have hn : escapeFieldValue env writer tag FIELD_NAME = some name := by
    unfold escapeFieldValue
    rw [escapeFieldValueFull_e_ctags env writer tag _ _ htype]
    exact hname
  have hf : escapeFieldValue env writer tag FIELD_INPUT_FILE = some inputFile := by
    unfold escapeFieldValue
    rw [escapeFieldValueFull_e_ctags env writer tag _ _ htype]
    exact hfile
  have hp : escapeFieldValue env writer tag FIELD_PATTERN = some pattern := by
    unfold escapeFieldValue
    rw [escapeFieldValueFull_e_ctags env writer tag _ _ htype]
    exact hpat
  have hl : locationField env writer tag = some pattern := by
    simp [locationField, hline, hloc, hp]
  exact writesRecord_of_parts env writer mio tag name inputFile pattern ext hacc hn hf hl hext

/-- The amended C12 at `eCtagsWriter` and the entry named `a\b`, in a file
named `d\e.c`: both are written without escaping, the pattern is written with
the escaped renderer. -/
theorem C12_renderer_of_each_writer_witness :
    writesRecord (escapingEnv [] false sampleOptions) sampleWriter ⟨""⟩
      { sampleTag with name := "a\\b", inputFile := "d\\e.c", pattern := "/^x\\y$/" }
      ("a\\b" ++ "\t" ++ "d\\e.c" ++ "\t" ++ "/^x\\\\y$/" ++ "") :=
  (C12_renderer_of_each_writer (escapingEnv [] false sampleOptions) sampleWriter ⟨""⟩
      { sampleTag with name := "a\\b", inputFile := "d\\e.c", pattern := "/^x\\y$/" }).2.2
    (by decide) (by decide) (by decide) (by decide) "a\\b" "d\\e.c" "/^x\\\\y$/" ""
    (by decide) (by decide) (by decide) (by decide)

/-! ## The rejection flag of a stream (C13) -/

theorem parserSegmentsFrom_priv (env : Env) (writer : tagWriter) (p : Option rejection)
    (tag : tagEntryInfo) (fs : List tagField) (i : Nat) :
    parserSegmentsFrom env { writer with priv := p } tag i fs
      = parserSegmentsFrom env writer tag i fs := by
  induction fs generalizing i with
  | nil => rfl
  | cons f fs ih =>
    simp only [parserSegmentsFrom, ih]
    rfl

theorem recordBody_priv (env : Env) (writer : tagWriter) (p : Option rejection)
    (tag : tagEntryInfo) :
    recordBody env { writer with priv := p } tag = recordBody env writer tag := by
  have hp : parserSegments env { writer with priv := p } tag = parserSegments env writer tag :=
    parserSegmentsFrom_priv env writer p tag tag.parserFields 0
  have he : extensionPart env { writer with priv := p } tag = extensionPart env writer tag := by
    unfold extensionPart
    rw [hp]
    rfl
  unfold recordBody
  rw [he]
  rfl

theorem writeEntries_flag (env : Env) (writer : tagWriter) (tags : List tagEntryInfo)
    (hdef : ∀ tag ∈ tags, hasTagEntryTabChar env tag = false →
      (recordBody env writer tag).isSome = true)
    (b : Bool) (mio : MIO) :
    writeEntries env { writer with priv := some { rejectionInThisInput := b } } mio tags
      = some ({ writer with
                priv := some ⟨b || tags.any (hasTagEntryTabChar env)⟩ },
          ⟨mio.buf ++ catSegments (acceptedRecords env writer tags)⟩) := by
  induction tags generalizing b mio with
  | nil => simp [writeEntries, acceptedRecords, catSegments]
  | cons tag tags ih =>
    have ih' := ih (fun t ht => hdef t (by simp [ht]))
    by_cases htab : hasTagEntryTabChar env tag = true
    · have hrej : rejects env { writer with priv := some { rejectionInThisInput := b } } tag
          = true := by simp [rejects, htab]
      simp only [writeEntries, writeCtagsEntry_rejected env _ mio tag hrej, Option.some_bind]
      rw [ih' true mio]
      simp [acceptedRecords, htab]
    · have htab' : hasTagEntryTabChar env tag = false := by simpa using htab
      have hacc : rejects env { writer with priv := some { rejectionInThisInput := b } } tag
          = false := by simp [rejects, htab']
      obtain ⟨body, hbody⟩ := Option.isSome_iff_exists.mp (hdef tag (by simp) htab')
      have hbody' : recordBody env { writer with priv := some { rejectionInThisInput := b } } tag
          = some body := by rw [recordBody_priv, hbody]
      obtain ⟨n, hw⟩ := writeCtagsEntry_record env _ mio tag body hacc hbody'
      simp only [writeEntries, hw, Option.some_bind]
      rw [ih' b]
      simp [acceptedRecords, htab', hbody, catSegments, String.append_assoc]

/-- C13: `beginECtagsFile` leaves the flag false; for a stream begun by it and
every sequence of entries, the calls of `writeCtagsEntry` return,
`endECTagsFile` then returns true exactly when an entry of the sequence was
rejected, and the stream has received, in order, the records of the entries
that were not rejected, each as it is written when no entry is rejected
before it; writing an accepted entry leaves the writer, flag included, as it
was. -/
theorem C13_stream_rejection_flag (env : Env) (writer : tagWriter) (mio : MIO)
    (tags : List tagEntryInfo)
    (hbegin : writer.priv = some beginECtagsFile)
    (hdef : ∀ tag ∈ tags, hasTagEntryTabChar env tag = false →
      (recordBody env writer tag).isSome = true) :
    beginECtagsFile.rejectionInThisInput = false
    ∧ (∃ writer' mio',
        writeEntries env writer mio tags = some (writer', mio')
        ∧ endECTagsFile writer' = some (tags.any fun tag => rejects env writer tag)
        ∧ mio'.buf = mio.buf ++ catSegments (acceptedRecords env writer tags))
    ∧ (∀ (flag : Bool) (m : MIO) (tag : tagEntryInfo),
        rejects env { writer with priv := some { rejectionInThisInput := flag } } tag = false →
        ∀ r, writeCtagsEntry env { writer with priv := some { rejectionInThisInput := flag } }
              m tag = some r →
          r.1 = { writer with priv := some { rejectionInThisInput := flag } })
    ∧ (∀ (flag : Bool) (m : MIO) (tag : tagEntryInfo) (body : String),
        hasTagEntryTabChar env tag = false → recordBody env writer tag = some body →
        writesRecord env { writer with priv := some { rejectionInThisInput := flag } } m tag
          body) := by
  have hw : writer = { writer with priv := some { rejectionInThisInput := false } } := by
    cases writer
    simp only [beginECtagsFile] at hbegin
    simp [hbegin]
  refine ⟨rfl, ?_, ?_, ?_⟩
  · refine ⟨{ writer with priv := some ⟨false || tags.any (hasTagEntryTabChar env)⟩ },
      ⟨mio.buf ++ catSegments (acceptedRecords env writer tags)⟩, ?_, ?_, rfl⟩
    · have h := writeEntries_flag env writer tags hdef false mio
      rw [← hw] at h
      exact h
    · have hr : (fun tag => rejects env writer tag) = hasTagEntryTabChar env := by
        funext tag
        simp [rejects, hbegin]
      simp [endECTagsFile, hr]
  · intro flag m tag hacc r hr
    have h := writeCtagsEntry_accepted env _ m tag hacc
    rw [hr] at h
    cases hb : recordBody env { writer with priv := some { rejectionInThisInput := flag } } tag with
    | none => rw [hb] at h; simp at h
    | some body =>
      rw [hb] at h
      simp only [Option.map_some', Option.some.injEq, Prod.mk.injEq] at h
      exact h.1
  · intro flag m tag body htab hbody
    have hacc : rejects env { writer with priv := some { rejectionInThisInput := flag } } tag
        = false := by simp [rejects, htab]
    unfold writesRecord
    rw [writeCtagsEntry_accepted env _ m tag hacc, recordBody_priv, hbody]
    rfl

/-- C13 at the sample stream, whose second entry is rejected. -/
theorem C13_stream_rejection_flag_witness :
    ∃ writer' mio',
      writeEntries (sampleEnv [] false sampleOptions "C") sampleWriter ⟨""⟩ sampleStream
        = some (writer', mio')
      ∧ endECTagsFile writer'
        = some (sampleStream.any fun tag =>
            rejects (sampleEnv [] false sampleOptions "C") sampleWriter tag)
      ∧ mio'.buf = "" ++ catSegments
          (acceptedRecords (sampleEnv [] false sampleOptions "C") sampleWriter sampleStream) :=
  (C13_stream_rejection_flag (sampleEnv [] false sampleOptions "C") sampleWriter ⟨""⟩
    sampleStream rfl (by decide)).2.1

/-! ## The value returned by `writeCtagsEntry` (C14) -/

theorem writeLocation_eq (env : Env) (writer : tagWriter) (mio : MIO) (tag : tagEntryInfo)
    (length : Nat) (hputs : ∀ s, env.mio_puts_result s = s.length) :
    writeLocation env writer mio tag length
      = (locationField env writer tag).map fun loc => (⟨mio.buf ++ loc⟩, length + loc.length) := by
  unfold writeLocation locationField writeLineNumberEntry mio_puts mio_printf fmt_lu ULONG_BITS
  by_cases h1 : tag.lineNumberEntry = true
  · by_cases h2 : env.Option.lineDirectives = true
    · cases hv : escapeFieldValue env writer tag FIELD_LINE_NUMBER <;> simp [h1, h2, hv]
    · simp [h1, h2]
  · by_cases h3 : env.Option.locate = exCmd.EX_COMBINE
    · cases hv : escapeFieldValue env writer tag FIELD_PATTERN <;>
        simp [h1, h3, hv, hputs, String.append_assoc, Nat.add_assoc]
    · cases hv : escapeFieldValue env writer tag FIELD_PATTERN <;> simp [h1, h3, hv, hputs]

theorem writeExtensions_eq (env : Env) (writer : tagWriter) (mio : MIO) (tag : tagEntryInfo)
    (length : Nat) :
    writeExtensions env writer mio tag length
      = (extensionPart env writer tag).map fun ext => (⟨mio.buf ++ ext⟩, length + ext.length) := by
  unfold writeExtensions extensionPart
  by_cases h : env.includeExtensionFlags = true
  · simp only [h, if_true, addExtensionFields_eq, addParserFields_eq]
    cases extensionSegments env writer tag with
    | none => simp
    | some segs =>
      cases parserSegments env writer tag with
      | none => simp
      | some psegs => simp [String.append_assoc, Nat.add_assoc]
  · simp [h]

/-- Under the assumption that `mio_puts` returns the number of bytes it has
written, an accepted entry returns the length of its record. -/
theorem writeCtagsEntry_accepted_eq (env : Env) (writer : tagWriter) (mio : MIO)
    (tag : tagEntryInfo) (hputs : ∀ s, env.mio_puts_result s = s.length)
    (hacc : rejects env writer tag = false) :
    writeCtagsEntry env writer mio tag
      = (recordBody env writer tag).map fun body =>
          (writer, ⟨mio.buf ++ (body ++ "\n")⟩, (body ++ "\n").length) := by
  unfold rejects at hacc
  unfold writeCtagsEntry recordBody
  rw [hacc]
  simp only [Bool.false_eq_true, if_false]
  cases hn : escapeFieldValue env writer tag FIELD_NAME with
  | none => simp
  | some name =>
    cases hf : escapeFieldValue env writer tag FIELD_INPUT_FILE with
    | none => simp
    | some inputFile =>
      simp only [Option.some_bind, writeLocation_eq env writer _ tag _ hputs]
      cases hloc : locationField env writer tag with
      | none => simp
      | some loc =>
        simp only [Option.map_some', Option.some_bind, writeExtensions_eq]
        cases hext : extensionPart env writer tag with
        | none => simp
        | some ext =>
          simp [mio_printf, String.append_assoc, Nat.add_assoc]

/-- C14: assuming that every write reports its byte count (`mio_puts` is the
one whose returned value is not fixed by the sources), the value returned by
`writeCtagsEntry` is the number of bytes it has appended to the stream; a
rejected entry returns 0 and appends nothing, an accepted entry returns the
length of its record, newline included, which is at least 3; so the value is 0
exactly when the entry was rejected. -/
theorem C14_return_value (env : Env) (writer : tagWriter) (mio : MIO) (tag : tagEntryInfo)
    (hputs : ∀ s, env.mio_puts_result s = s.length) :
    (rejects env writer tag = true →
      writeCtagsEntry env writer mio tag
        = some ({ writer with priv := some { rejectionInThisInput := true } }, mio, 0))
    ∧ (rejects env writer tag = false → ∀ body, recordBody env writer tag = some body →
        writeCtagsEntry env writer mio tag
          = some (writer, ⟨mio.buf ++ (body ++ "\n")⟩, (body ++ "\n").length)
        ∧ 3 ≤ (body ++ "\n").length)
    ∧ (∀ writer' mio' n, writeCtagsEntry env writer mio tag = some (writer', mio', n) →
        (∃ written : String, mio'.buf = mio.buf ++ written ∧ n = written.length)
        ∧ (n = 0 ↔ rejects env writer tag = true)
        ∧ (rejects env writer tag = false → 3 ≤ n)) := by
  have hlen : ∀ body, recordBody env writer tag = some body → 3 ≤ (body ++ "\n").length := by
    intro body hbody
    have := recordBody_length env writer tag body hbody
    simp only [String.length_append]
    have h1 : "\n".length = 1 := rfl
    omega
  refine ⟨writeCtagsEntry_rejected env writer mio tag, ?_, ?_⟩
  · intro hacc body hbody
    refine ⟨?_, hlen body hbody⟩
    rw [writeCtagsEntry_accepted_eq env writer mio tag hputs hacc, hbody]
    rfl
  · intro writer' mio' n hw
    cases hr : rejects env writer tag with
    | true =>
      rw [writeCtagsEntry_rejected env writer mio tag hr] at hw
      simp only [Option.some.injEq, Prod.mk.injEq] at hw
      obtain ⟨_, hm, hn⟩ := hw
      subst hm hn
      exact ⟨⟨"", by simp, rfl⟩, by simp, by simp⟩
    | false =>
      rw [writeCtagsEntry_accepted_eq env writer mio tag hputs hr] at hw
      cases hb : recordBody env writer tag with
      | none => rw [hb] at hw; simp at hw
      | some body =>
        rw [hb] at hw
        simp only [Option.map_some', Option.some.injEq, Prod.mk.injEq] at hw
        obtain ⟨_, hm, hn⟩ := hw
        have h3 := hlen body hb
        subst hm hn
        refine ⟨⟨body ++ "\n", rfl, rfl⟩, ?_, fun _ => h3⟩
        constructor
        · intro h0; omega
        · intro h; simp at h

/-- C14 at the sample entry, written with the kind enabled: 34 bytes. -/
theorem C14_return_value_witness :
    writeCtagsEntry (sampleEnv [FIELD_KIND] true sampleOptions "C") sampleWriter ⟨""⟩ sampleTag
        = some (sampleWriter,
            ⟨"" ++ ("main\tmain.c\t/^int main (void)$/;\"\tf" ++ "\n")⟩,
            ("main\tmain.c\t/^int main (void)$/;\"\tf" ++ "\n").length)
    ∧ 3 ≤ ("main\tmain.c\t/^int main (void)$/;\"\tf" ++ "\n").length :=
  (C14_return_value (sampleEnv [FIELD_KIND] true sampleOptions "C") sampleWriter ⟨""⟩ sampleTag
      (fun _ => rfl)).2.1 (by decide) "main\tmain.c\t/^int main (void)$/;\"\tf" (by decide)

/-! ## Fixed fields (C15) -/

/-- C15: `treatFieldAsFixed` is true exactly for Name, InputFile and Pattern,
and both `uCtagsWriter` and `eCtagsWriter` have this function as their
`treatFieldAsFixed` member and `tags` as their default file name. -/
theorem C15_fixed_fields :
    (∀ ft : fieldType, treatFieldAsFixed ft = true
        ↔ (ft = FIELD_NAME ∨ ft = FIELD_INPUT_FILE ∨ ft = FIELD_PATTERN))
    ∧ uCtagsWriter.treatFieldAsFixed = treatFieldAsFixed
    ∧ eCtagsWriter.treatFieldAsFixed = treatFieldAsFixed
    ∧ uCtagsWriter.defaultFileName = "tags"
    ∧ eCtagsWriter.defaultFileName = "tags" := by
  refine ⟨fun ft => ?_, rfl, rfl, rfl, rfl⟩
  cases ft <;> simp [treatFieldAsFixed]

/-! ## The scope segment (C16) -/

/-- C16: the scope segment written by `addExtensionFields`.  When Scope is
enabled and both the scope kind and the scope name render to a value, the
segment is a tab, the scope kind, a colon and the scope name, with the scope
key and a colon after the tab exactly when the scope key flag is enabled;
otherwise nothing is written for Scope, and the marker stays for the next
segment.  Here `pre` are the segments written before it (Kind, LineNumber,
Language) and `post` the ones written after it. -/
theorem C16_scope_segment (env : Env) (writer : tagWriter) (mio : MIO) (tag : tagEntryInfo)
    (pre post : List String)
    (hpre : presentSegments
        [ some (kindSegment env tag),
          some (lineNumberSegment env tag),
          fieldSegment env writer tag FIELD_LANGUAGE ] = some pre)
    (hpost : presentSegments
        [ fieldSegment env writer tag FIELD_TYPE_REF,
          some (fileScopeSegment env tag),
          fieldSegment env writer tag FIELD_INHERITANCE,
          fieldSegment env writer tag FIELD_ACCESS,
          fieldSegment env writer tag FIELD_IMPLEMENTATION,
          fieldSegment env writer tag FIELD_SIGNATURE,
          fieldSegment env writer tag FIELD_ROLES,
          fieldSegment env writer tag FIELD_EXTRAS,
          fieldSegment env writer tag FIELD_XPATH,
          fieldSegment env writer tag FIELD_END_LINE ] = some post) :
    (env.isFieldEnabled FIELD_SCOPE = true → ∀ k v,
      escapeFieldValue env writer tag FIELD_SCOPE_KIND_LONG = some k →
      escapeFieldValue env writer tag FIELD_SCOPE = some v →
      addExtensionFields env writer mio tag
        = some (⟨mio.buf ++ extensionBlock
              (pre ++ ["\t" ++ (if env.isFieldEnabled FIELD_SCOPE_KEY then
                                  env.getFieldName FIELD_SCOPE_KEY ++ ":" else "")
                        ++ k ++ ":" ++ v] ++ post)⟩,
            (extensionBlock
              (pre ++ ["\t" ++ (if env.isFieldEnabled FIELD_SCOPE_KEY then
                                  env.getFieldName FIELD_SCOPE_KEY ++ ":" else "")
                        ++ k ++ ":" ++ v] ++ post)).length))
    ∧ ((env.isFieldEnabled FIELD_SCOPE = false
          ∨ escapeFieldValue env writer tag FIELD_SCOPE_KIND_LONG = none
          ∨ escapeFieldValue env writer tag FIELD_SCOPE = none) →
      addExtensionFields env writer mio tag
        = some (⟨mio.buf ++ extensionBlock (pre ++ post)⟩,
            (extensionBlock (pre ++ post)).length)) := by
  have hsegs : extensionSegments env writer tag
      = some (pre ++ ((scopeSegment env writer tag).toList ++ post)) := by
    show presentSegments
      ([ some (kindSegment env tag),
          some (lineNumberSegment env tag),
          fieldSegment env writer tag FIELD_LANGUAGE ]
        ++ ([some (scopeSegment env writer tag)]
        ++ [ fieldSegment env writer tag FIELD_TYPE_REF,
          some (fileScopeSegment env tag),
          fieldSegment env writer tag FIELD_INHERITANCE,
          fieldSegment env writer tag FIELD_ACCESS,
          fieldSegment env writer tag FIELD_IMPLEMENTATION,
          fieldSegment env writer tag FIELD_SIGNATURE,
          fieldSegment env writer tag FIELD_ROLES,
          fieldSegment env writer tag FIELD_EXTRAS,
          fieldSegment env writer tag FIELD_XPATH,
          fieldSegment env writer tag FIELD_END_LINE ])) = _
    rw [presentSegments_append, presentSegments_append, hpre, hpost]
    simp [presentSegments]
  refine ⟨?_, ?_⟩
  · intro hen k v hk hv
    have hs : scopeSegment env writer tag
        = some ("\t" ++ (if env.isFieldEnabled FIELD_SCOPE_KEY then
            env.getFieldName FIELD_SCOPE_KEY ++ ":" else "") ++ k ++ ":" ++ v) := by
      simp [scopeSegment, hen, hk, hv]
    rw [addExtensionFields_eq, hsegs, hs]
    simp
  · intro h
    have hs : scopeSegment env writer tag = none := by
      unfold scopeSegment
      rcases h with h | h | h
      · simp [h]
      · simp [h]
      · cases hk : escapeFieldValue env writer tag FIELD_SCOPE_KIND_LONG <;> simp [h]
    rw [addExtensionFields_eq, hsegs, hs]
    simp

/-- C16 at the sample entry with Kind and Scope enabled: the scope segment is
`struct:S`, without a key. -/
theorem C16_scope_segment_witness :
    addExtensionFields (sampleEnv [FIELD_KIND, FIELD_SCOPE] true sampleOptions "C") sampleWriter
        ⟨""⟩ sampleTag
      = some (⟨"" ++ extensionBlock (["\tf"] ++ ["\t" ++ "" ++ "struct" ++ ":" ++ "S"] ++ [])⟩,
          (extensionBlock (["\tf"] ++ ["\t" ++ "" ++ "struct" ++ ":" ++ "S"] ++ [])).length) :=
  (C16_scope_segment (sampleEnv [FIELD_KIND, FIELD_SCOPE] true sampleOptions "C") sampleWriter
      ⟨""⟩ sampleTag ["\tf"] [] (by decide) (by decide)).1
    (by decide) "struct" "S" (by decide) (by decide)

/-! ## The arithmetic of combine mode (C17) -/

/-- C20, the code at the failing input: extension output is off, so neither
extension nor parser fields are written, and Name, InputFile and Pattern have
no tab; the entry has an enabled parser field whose value has a tab, and it is
rejected, although its record would be the three tab-free fixed fields. -/
theorem C20_rejected_for_unwritten_parser_field :
    (sampleEnv [FIELD_PARSER 0] false sampleOptions "C").includeExtensionFlags = false
    ∧ (sampleEnv [FIELD_PARSER 0] false sampleOptions "C").doesFieldHaveTabChar FIELD_NAME
          tabParserFieldTag NO_PARSER_FIELD = false
    ∧ (sampleEnv [FIELD_PARSER 0] false sampleOptions "C").doesFieldHaveTabChar FIELD_INPUT_FILE
          tabParserFieldTag NO_PARSER_FIELD = false
    ∧ (sampleEnv [FIELD_PARSER 0] false sampleOptions "C").doesFieldHaveTabChar FIELD_PATTERN
          tabParserFieldTag NO_PARSER_FIELD = false
    ∧ recordBody (sampleEnv [FIELD_PARSER 0] false sampleOptions "C") sampleWriter
          tabParserFieldTag = some "main\tmain.c\t/^int main (void)$/"
    ∧ writeCtagsEntry (sampleEnv [FIELD_PARSER 0] false sampleOptions "C") sampleWriter ⟨""⟩
          tabParserFieldTag
        = some ({ sampleWriter with priv := some { rejectionInThisInput := true } }, ⟨""⟩, 0) := by
  decide

/-! ## The rules of the HTML parser (C18, C19) -/

theorem dropLit_false_append (p r : List Char) : dropLit false p (p ++ r) = some r := by
  induction p with
  | nil => rfl
  | cons a p ih => simp [dropLit, charMatches, ih]

end Ctags
